import Mathlib

/-!
Shallow embedding, in Lean 4, of the core parsing and signal logic of the
CRUPTONYHA Telegram bot (source files: `parser_investing_generic.py`,
`indicators.py`, `bot.py`, `parser_altseason.py`, `storage.py`).

Modelling conventions:
* Python floats are modelled as exact rationals (`ℚ`); every numeric literal
  occurring in the verified claims is exactly representable, so no binary
  rounding gap arises on the evaluated inputs.
* Python strings are Lean `String`s; `str.lower` / `str.upper` are modelled
  for ASCII and for the Cyrillic А..Я / а..я block, which covers every
  alphabet used by the source files.
* The regular expressions of the sources are embedded as deterministic
  character-list matchers.  Each matcher is derived by hand from the concrete
  pattern together with Python's leftmost-then-greedy backtracking semantics;
  for these particular patterns the semantics are deterministic because every
  sub-pattern following a greedy quantifier is optional or starts with a
  character class disjoint from the quantified class.
* Functions performing I/O (`requests.get`, `cloudscraper`, BeautifulSoup
  parsing) are modelled by explicit oracle inputs carrying their possible
  outcomes (HTTP status and body, raised exception text, parsed table list);
  the pure control flow around them is embedded faithfully.
* Python `raise` / `try` is modelled with `Except` / `Option`; a Lean
  function being total corresponds to the Python code never raising.
-/

/-! ### Python-style character and string helpers -/

/-- The whitespace characters stripped by Python `str.strip()` / matched by
regex `\s` that can occur in this code base (ASCII whitespace plus NBSP and
narrow no-break space). -/
def isPySpace (c : Char) : Bool :=
  c = ' ' || c = '\t' || c = '\n' || c = '\r' || c = '\u000B' || c = '\u000C' ||
  c = '\u00A0' || c = '\u202F'

/-- Python `str.strip()` on a character list. -/
def pyStrip (cs : List Char) : List Char :=
  ((cs.dropWhile isPySpace).reverse.dropWhile isPySpace).reverse

/-- Python `str.strip(set)` on a character list (strip any of the given
characters from both ends). -/
def pyStripSet (set : List Char) (cs : List Char) : List Char :=
  ((cs.dropWhile (set.contains ·)).reverse.dropWhile (set.contains ·)).reverse

/-- Python `str.lower` on one character, for ASCII and Cyrillic А..Я, Ё. -/
def pyLower (c : Char) : Char :=
  if 'A' ≤ c ∧ c ≤ 'Z' then Char.ofNat (c.toNat + 32)
  else if 'А' ≤ c ∧ c ≤ 'Я' then Char.ofNat (c.toNat + 32)
  else if c = 'Ё' then 'ё'
  else c

/-- Python `str.upper` on one character, for ASCII and Cyrillic а..я, ё. -/
def pyUpper (c : Char) : Char :=
  if 'a' ≤ c ∧ c ≤ 'z' then Char.ofNat (c.toNat - 32)
  else if 'а' ≤ c ∧ c ≤ 'я' then Char.ofNat (c.toNat - 32)
  else if c = 'ё' then 'Ё'
  else c

/-- Python `str.lower` on a string. -/
def pyLowerStr (s : String) : String := String.mk (s.toList.map pyLower)

/-- Python `str.upper` on a string. -/
def pyUpperStr (s : String) : String := String.mk (s.toList.map pyUpper)

/-- Is `needle` a contiguous substring of `hay` (Python's `needle in hay`)? -/
def isSubstr (needle : List Char) : List Char → Bool
  | [] => needle.isEmpty
  | c :: t => needle.isPrefixOf (c :: t) || isSubstr needle t

/-- Python `needle in hay` on strings. -/
def containsStr (hay needle : String) : Bool := isSubstr needle.toList hay.toList

/-- Boolean string-prefix test, used to state which stage tag an error
message carries. -/
def strHasPrefix (p s : String) : Bool := p.toList.isPrefixOf s.toList

/-- Python `s.replace(old, new)` (all non-overlapping occurrences, scanning
left to right), on character lists; `fuel` bounds the recursion and is
instantiated with the input length. -/
def pyReplace : Nat → List Char → List Char → List Char → List Char
  | 0, cs, _, _ => cs
  | _ + 1, [], _, _ => []
  | fuel + 1, c :: t, old, new =>
    if old ≠ [] ∧ old.isPrefixOf (c :: t) then
      new ++ pyReplace fuel ((c :: t).drop old.length) old new
    else
      c :: pyReplace fuel t old new

/-- Digit run to a natural number. -/
def digitsToNat (ds : List Char) : Nat := ds.foldl (fun a c => a * 10 + (c.toNat - 48)) 0

/-! ### Units (`_UNIT_TOKENS` of `parser_investing_generic.py`) -/

/-- The normalized unit names `percent / thousand / million / billion /
trillion` used by `_to_scalar`. -/
inductive UnitTag where
  | percent | thousand | million | billion | trillion
deriving DecidableEq, Repr

/-- The `_UNIT_TOKENS` alias table: token, normalized name, scale factor. -/
def unitTokenTable : List (String × UnitTag × ℚ) :=
  [("%", UnitTag.percent, 1), ("percent", UnitTag.percent, 1), ("проц", UnitTag.percent, 1),
   ("k", UnitTag.thousand, 1000), ("thousand", UnitTag.thousand, 1000),
   ("ths", UnitTag.thousand, 1000), ("тыс", UnitTag.thousand, 1000),
   ("тыс.", UnitTag.thousand, 1000),
   ("m", UnitTag.million, 1000000), ("mln", UnitTag.million, 1000000),
   ("million", UnitTag.million, 1000000), ("млн", UnitTag.million, 1000000),
   ("млн.", UnitTag.million, 1000000), ("mio", UnitTag.million, 1000000),
   ("mio.", UnitTag.million, 1000000),
   ("b", UnitTag.billion, 1000000000), ("bn", UnitTag.billion, 1000000000),
   ("bln", UnitTag.billion, 1000000000), ("billion", UnitTag.billion, 1000000000),
   ("млрд", UnitTag.billion, 1000000000), ("млрд.", UnitTag.billion, 1000000000),
   ("t", UnitTag.trillion, 1000000000000), ("trn", UnitTag.trillion, 1000000000000),
   ("trillion", UnitTag.trillion, 1000000000000)]

/-- Membership lookup in `_UNIT_TOKENS`. -/
def unitLookup (s : String) : Option (UnitTag × ℚ) :=
  (unitTokenTable.find? (·.1 == s)).map (·.2)

/-- The `_NOISE_TOKENS` set.  In `_extract_unit_token` the membership test
only guards a `continue` that is the last statement of the loop body, so it
has no observable effect; the set is recorded here for completeness. -/
def noiseTokens : List String :=
  ["bbl", "barrel", "barrels", "jobs", "claims", "inventories", "units",
   "mom", "qoq", "yoy", "mtm", "m/m", "y/y", "q/q"]

/-! ### The number regex `RE_NUM`

`RE_NUM = \(?\s*(CORE)\s*\)?` with
`CORE = [+\-−]?\s*\d{1,3}(?:[   ]?\d{3})*(?:[.,]\d+)?`.

Note that the grouping-separator class of `CORE` contains only the space,
NBSP and narrow-no-break-space characters: a comma is NOT a permitted
grouping separator, it can only start the single optional fractional part.
-/

/-- The sign class `[+\-−]` of `RE_NUM_CORE`. -/
def isSignChar (c : Char) : Bool := c = '+' || c = '-' || c = '−'

/-- The grouping-separator class `[   ]` of `RE_NUM_CORE`. -/
def isNumSep (c : Char) : Bool := c = ' ' || c = '\u00A0' || c = '\u202F'

/-- Greedy `\d{1,3}` at the head of the input. -/
def takeUpTo3Digits : List Char → Option (List Char × List Char)
  | [] => none
  | c1 :: rest =>
    if c1.isDigit then
      match rest with
      | [] => some ([c1], [])
      | c2 :: rest2 =>
        if c2.isDigit then
          match rest2 with
          | [] => some ([c1, c2], [])
          | c3 :: rest3 =>
            if c3.isDigit then some ([c1, c2, c3], rest3) else some ([c1, c2], rest2)
        else some ([c1], rest)
    else none

/-- Exactly `\d{3}` at the head of the input. -/
def take3Digits : List Char → Option (List Char × List Char)
  | c1 :: c2 :: c3 :: rest =>
    if c1.isDigit && c2.isDigit && c3.isDigit then some ([c1, c2, c3], rest) else none
  | _ => none

/-- One repetition of `(?:[   ]?\d{3})`: the optional separator is
tried greedily; if taking the separator leaves no three digits, the
alternative without the separator also fails, because the separator character
is not a digit. -/
def groupRep (cs : List Char) : Option (List Char × List Char) :=
  match cs with
  | [] => none
  | c :: rest =>
    if isNumSep c then
      match take3Digits rest with
      | some (d, r) => some (c :: d, r)
      | none => none
    else take3Digits cs

/-- Greedy star over `groupRep`; `fuel` is instantiated with the input
length.  No backtracking into the star is needed because every sub-pattern
after it is optional. -/
def groupStar : Nat → List Char → List Char × List Char
  | 0, cs => ([], cs)
  | fuel + 1, cs =>
    match groupRep cs with
    | some (g, r) =>
      let (g2, r2) := groupStar fuel r
      (g ++ g2, r2)
    | none => ([], cs)

/-- The optional fractional part `(?:[.,]\d+)?` (greedy). -/
def fracOpt : List Char → List Char × List Char
  | [] => ([], [])
  | c :: rest =>
    if c = '.' || c = ',' then
      let d := rest.takeWhile Char.isDigit
      if d.isEmpty then ([], c :: rest) else (c :: d, rest.dropWhile Char.isDigit)
    else ([], c :: rest)

/-- Match `RE_NUM_CORE` at the current position; returns the matched capture
group and the remaining input. -/
def matchCore (cs : List Char) : Option (List Char × List Char) :=
  let (sgn, cs1) :=
    match cs with
    | c :: rest => if isSignChar c then ([c], rest) else (([] : List Char), cs)
    | [] => ([], [])
  let ws := cs1.takeWhile isPySpace
  let cs2 := cs1.dropWhile isPySpace
  match takeUpTo3Digits cs2 with
  | none => none
  | some (d1, cs3) =>
    let (grp, cs4) := groupStar cs3.length cs3
    let (fr, cs5) := fracOpt cs4
    some (sgn ++ ws ++ d1 ++ grp ++ fr, cs5)

/-- Match the full `RE_NUM` pattern (`\(?\s*(CORE)\s*\)?`) at the current
position; returns `(group 1, input after the whole match)`. -/
def matchNumAt (cs : List Char) : Option (List Char × List Char) :=
  let cs1 := match cs with
    | '(' :: rest => rest
    | _ => cs
  let cs2 := cs1.dropWhile isPySpace
  match matchCore cs2 with
  | none => none
  | some (g, r) =>
    let r2 := r.dropWhile isPySpace
    let r3 := match r2 with
      | ')' :: rest => rest
      | _ => r2
    some (g, r3)

/-- Leftmost search of `RE_NUM` (Python `re.search`); `fuel` is instantiated
with the input length plus one. -/
def searchNumAux : Nat → List Char → Option (List Char × List Char)
  | 0, _ => none
  | fuel + 1, cs =>
    match matchNumAt cs with
    | some res => some res
    | none =>
      match cs with
      | [] => none
      | _ :: t => searchNumAux fuel t

/-- `RE_NUM.search`: returns `(group 1, input after the full match)`. -/
def searchNum (cs : List Char) : Option (List Char × List Char) :=
  searchNumAux (cs.length + 1) cs

/-! ### `_to_float`, `_extract_unit_token`, `_to_scalar` -/

/-- Python `float()` on the string shapes reachable from `_to_float` after
its replacements: an optional sign, an integral digit run, and an optional
`'.'` with a fractional digit run (Python also accepts exponents and
`inf`/`nan`, which cannot occur here). -/
def pyFloat (cs : List Char) : Option ℚ :=
  let (sgnNeg, cs1) :=
    match cs with
    | '-' :: rest => (true, rest)
    | '+' :: rest => (false, rest)
    | _ => (false, cs)
  let ip := cs1.takeWhile Char.isDigit
  let cs2 := cs1.dropWhile Char.isDigit
  match cs2 with
  | [] =>
    if ip.isEmpty then none
    else some ((if sgnNeg then -1 else 1) * (digitsToNat ip : ℚ))
  | '.' :: rest =>
    let fp := rest.takeWhile Char.isDigit
    let cs3 := rest.dropWhile Char.isDigit
    if cs3.isEmpty && !(ip.isEmpty && fp.isEmpty) then
      some ((if sgnNeg then -1 else 1) *
        ((digitsToNat ip : ℚ) + (digitsToNat fp : ℚ) / (10 : ℚ) ^ fp.length))
    else none
  | _ => none

/-- Embeds `_to_float(num_str, paren_neg)`: strip, normalize the Unicode
minus, remove spaces, disambiguate comma versus period, convert, and force
the sign for parenthesized negatives. -/
def toFloat (numStr : List Char) (parenNeg : Bool) : Option ℚ :=
  if numStr.isEmpty then none
  else
    let t0 := ((pyStrip numStr).map (fun c => if c = '−' then '-' else c)).filter (· ≠ ' ')
    let t :=
      if t0.contains ',' && t0.contains '.' then t0.filter (· ≠ ',')
      else if t0.contains ',' && !t0.contains '.' then
        t0.map (fun c => if c = ',' then '.' else c)
      else t0
    match pyFloat t with
    | none => none
    | some v => some (if parenNeg then -|v| else v)

/-- The token character class `[a-zа-я.%]` used by `_extract_unit_token`
(the inputs at its call sites are already lowercased). -/
def isUnitTokChar (c : Char) : Bool :=
  ('a' ≤ c && c ≤ 'z') || ('а' ≤ c && c ≤ 'я') || c = '.' || c = '%'

/-- `re.findall(r"[a-zа-я.%]+", text)`: the maximal runs of token
characters; `fuel` is instantiated with the input length plus one. -/
def alphaRuns : Nat → List Char → List (List Char)
  | 0, _ => []
  | _ + 1, [] => []
  | fuel + 1, c :: rest =>
    if isUnitTokChar c then
      (c :: rest.takeWhile isUnitTokChar) :: alphaRuns fuel (rest.dropWhile isUnitTokChar)
    else alphaRuns fuel rest

/-- The token loop of `_extract_unit_token`: return the first run which,
after stripping periods and lowercasing, is a unit token.  (The noise-token
`continue` in the source is a no-op since it is the last statement of the
loop body.) -/
def firstUnitTok : List (List Char) → Option String
  | [] => none
  | r :: rest =>
    let t := String.mk ((pyStripSet ['.'] r).map pyLower)
    if (unitLookup t).isSome then some t else firstUnitTok rest

/-- Embeds `_extract_unit_token(text_lower)`. -/
def extractUnitToken (low : List Char) : Option String :=
  if low.contains '%' then some "%"
  else
    match firstUnitTok (alphaRuns (low.length + 1) low) with
    | some t => some t
    | none =>
      match searchNum low with
      | none => none
      | some (_, rest) =>
        let tail := pyStripSet ['(', ')', '[', ']', '\x7b', '\x7d', ':', ';'] (pyStrip rest)
        let suf := (tail.takeWhile isUnitTokChar).take 7
        if suf.isEmpty then none
        else
          let t := String.mk ((pyStripSet ['.'] suf).map pyLower)
          if (unitLookup t).isSome then some t else none

/-- Embeds `_normalize_spaces`: replace NBSP and narrow NBSP with plain
spaces, then strip. -/
def normalizeSpaces (s : String) : List Char :=
  pyStrip (s.toList.map (fun c => if c = '\u00A0' || c = '\u202F' then ' ' else c))

/-- The "no data" tokens recognized by `_to_scalar`. -/
def missingTokens : List String :=
  ["—", "-", "•", "", "n/a", "na", "—/—", "waiting", "pending"]

/-- Embeds `_to_scalar(txt)`, the Value Normalizer: returns
`(value, unit)` with the value already multiplied by the unit scale. -/
def toScalar (txt : String) : Option ℚ × Option UnitTag :=
  if txt = "" then (none, none)
  else
    let raw := normalizeSpaces txt
    let low := raw.map pyLower
    if missingTokens.contains (String.mk low) then (none, none)
    else
      match searchNum raw with
      | none => (none, none)
      | some (g, _) =>
        let parenNeg :=
          (match raw with | '(' :: _ => true | _ => false) &&
          (match raw.getLast? with | some ')' => true | _ => false)
        match toFloat g parenNeg with
        | none => (none, none)
        | some num =>
          match extractUnitToken low with
          | some tok =>
            match unitLookup tok with
            | some (name, mul) => (some (num * mul), some name)
            | none => (some num, none)
          | none => (some num, none)

/-! ### `_fmt_val` (the companion formatter) -/

/-- Round half to even to an integer, as Python's decimal formatting does;
exact on every input occurring in the verified claims. -/
def roundHalfEven (q : ℚ) : Int :=
  let f := ⌊q⌋
  let r := q - f
  if r > 1 / 2 then f + 1
  else if r < 1 / 2 then f
  else if f % 2 = 0 then f else f + 1

/-- Two-digit zero padding. -/
def pad2 (n : Nat) : String := if n < 10 then "0" ++ toString n else toString n

/-- Python `format(v, ".2f")` followed by `rstrip("0").rstrip(".")` as in
`_fmt_val`. -/
def fmt2 (v : ℚ) : String :=
  let n := roundHalfEven (v * 100)
  let sgn := if n < 0 then "-" else ""
  let m := n.natAbs
  let s := sgn ++ toString (m / 100) ++ "." ++ pad2 (m % 100)
  let cs1 := (s.toList.reverse.dropWhile (· = '0')).reverse
  String.mk ((cs1.reverse.dropWhile (· = '.')).reverse)

/-- Embeds `_fmt_val(v, u)`: `None` renders as the fixed placeholder, percent
values keep their magnitude, other values get the largest T/B/M/K suffix
whose threshold their absolute value reaches. -/
def fmtVal (v : Option ℚ) (u : Option UnitTag) : String :=
  match v with
  | none => "ожид"
  | some v =>
    if u = some UnitTag.percent then fmt2 v ++ "%"
    else
      let absv := |v|
      if absv ≥ 1000000000000 then fmt2 (v / 1000000000000) ++ "T"
      else if absv ≥ 1000000000 then fmt2 (v / 1000000000) ++ "B"
      else if absv ≥ 1000000 then fmt2 (v / 1000000) ++ "M"
      else if absv ≥ 1000 then fmt2 (v / 1000) ++ "K"
      else fmt2 v

/-! ### Rows and signal rules (`indicators.py`, `bot.py`) -/

/-- One economic-release record as assembled by `fetch_table_rows`.  The
`revised_from_*` keys are only present in the Python dict when a revision was
parsed; absence is modelled by `none`.  Rows handed to the signal rules only
need the `*_val` fields; the defaults let concrete test rows elide the
rest. -/
structure Row where
  date : String := ""
  time : String := ""
  actual : String := ""
  forecast : String := ""
  previous : String := ""
  actual_val : Option ℚ := none
  forecast_val : Option ℚ := none
  previous_val : Option ℚ := none
  actual_unit : Option UnitTag := none
  forecast_unit : Option UnitTag := none
  previous_unit : Option UnitTag := none
  revised_from_val : Option ℚ := none
  revised_from_unit : Option UnitTag := none
  release_dt_iso : Option String := none
deriving DecidableEq, Repr

/-- Embeds `_rule_long_if_actual_lt_forecast` ("LT"). -/
def ruleLongIfActualLtForecast (row : Row) : String :=
  match row.actual_val, row.forecast_val with
  | some a, some f => if a < f then "LONG" else "SHORT"
  | _, _ => "NEUTRAL"

/-- Embeds `_rule_long_if_actual_gt_forecast` ("GT"). -/
def ruleLongIfActualGtForecast (row : Row) : String :=
  match row.actual_val, row.forecast_val with
  | some a, some f => if a > f then "LONG" else "SHORT"
  | _, _ => "NEUTRAL"

/-- Embeds `_rule_short_if_actual_gt_forecast` (inflationary presets). -/
def ruleShortIfActualGtForecast (row : Row) : String :=
  match row.actual_val, row.forecast_val with
  | some a, some f => if a > f then "SHORT" else "LONG"
  | _, _ => "NEUTRAL"

/-- Embeds `_rule_fomc_rate`: despite its name it compares the actual value
with the FORECAST value (`"LONG" if a < f else "SHORT"`), exactly as written
at `indicators.py:45-53`. -/
def ruleFomcRate (row : Row) : String :=
  match row.actual_val, row.forecast_val with
  | some a, some f => if a < f then "LONG" else "SHORT"
  | _, _ => "NEUTRAL"

/-- The Python `rule` field of an indicator holds either a callable, a string
rule code, or `None` (the synthetic ALTSEASON entry). -/
inductive RuleVal where
  | func : (Row → String) → RuleVal
  | code : String → RuleVal
  | null : RuleVal

/-- One indicator-catalog entry. -/
structure Indicator where
  title : String
  url : String
  rule : RuleVal

/-- Embeds `PRESET_INDICATORS` (an insertion-ordered dict, modelled as an
association list). -/
def PRESET_INDICATORS : List (String × Indicator) :=
  [("CPI", ⟨"Индекс потребительских цен (CPI / Core CPI)",
      "https://www.investing.com/economic-calendar/core-cpi-56",
      RuleVal.func ruleShortIfActualGtForecast⟩),
   ("PPI", ⟨"Индекс цен производителей (PPI)",
      "https://ru.investing.com/economic-calendar/ppi-238",
      RuleVal.func ruleShortIfActualGtForecast⟩),
   ("CORE_PCE", ⟨"Базовый ценовой индекс расходов на личное потребление (Core PCE), м/м",
      "https://ru.investing.com/economic-calendar/core-pce-price-index-61",
      RuleVal.func ruleShortIfActualGtForecast⟩),
   ("NFP", ⟨"Несельскохозяйственная занятость (NFP)",
      "https://www.investing.com/economic-calendar/nonfarm-payrolls-227",
      RuleVal.func ruleShortIfActualGtForecast⟩),
   ("RETAIL_SALES", ⟨"Розничные продажи",
      "https://www.investing.com/economic-calendar/retail-sales-256",
      RuleVal.func ruleShortIfActualGtForecast⟩),
   ("UNEMPLOYMENT", ⟨"Уровень безработицы",
      "https://www.investing.com/economic-calendar/unemployment-rate-300",
      RuleVal.func ruleLongIfActualGtForecast⟩),
   ("JOBLESS_CLAIMS", ⟨"Первичные заявки на пособие по безработице",
      "https://www.investing.com/economic-calendar/initial-jobless-claims-294",
      RuleVal.func ruleLongIfActualGtForecast⟩),
   ("CRUDE_OIL_INV", ⟨"Запасы сырой нефти (EIA)",
      "https://www.investing.com/economic-calendar/eia-crude-oil-inventories-75",
      RuleVal.func ruleLongIfActualGtForecast⟩),
   ("ISM_MANUFACTURING_PMI", ⟨"Индекс деловой активности в производственном секторе (ISM Manufacturing PMI)",
      "https://ru.investing.com/economic-calendar/ism-manufacturing-pmi-173",
      RuleVal.func ruleShortIfActualGtForecast⟩),
   ("FOMC_RATE", ⟨"Решение по процентной ставке ФРС США",
      "https://ru.investing.com/economic-calendar/interest-rate-decision-168",
      RuleVal.func ruleFomcRate⟩)]

/-- Embeds the `_RULES` dict lookup with the default of
`get_indicators`: `_RULES.get(code, _rule_long_if_actual_lt_forecast)`. -/
def RULES_get (s : String) : Row → String :=
  if s = "LT" then ruleLongIfActualLtForecast
  else if s = "GT" then ruleLongIfActualGtForecast
  else if s = "FOMC" then ruleFomcRate
  else ruleLongIfActualLtForecast

/-- Embeds `_RULES.get((ci.get("rule") or "").upper(), default)`. -/
def rulesGet (o : Option String) : Row → String :=
  RULES_get (pyUpperStr (o.getD ""))

/-- One custom-indicator record as stored by `storage.py` (the `rule`
column may be NULL, hence `Option`). -/
structure CustomIndicator where
  key : String
  title : String
  url : String
  rule : Option String

/-- Python dict assignment `d[k] = v` on an association list: replace in
place if the key is present, else append. -/
def assocSet (l : List (String × α)) (k : String) (v : α) : List (String × α) :=
  if l.any (fun p => p.1 == k) then
    l.map (fun p => if p.1 == k then (k, v) else p)
  else l ++ [(k, v)]

/-- Python dict membership / lookup on an association list. -/
def lookupInd (l : List (String × α)) (k : String) : Option α :=
  (l.find? (·.1 == k)).map (·.2)

/-- Embeds `get_indicators(chat_id)`: the preset catalog with the chat's
custom indicators merged on top; every stored rule CODE is converted to a
callable via `_RULES.get(..., default)` (the `await` of the storage call is
modelled by passing the custom list as an argument). -/
def getIndicators (customs : List CustomIndicator) : List (String × Indicator) :=
  customs.foldl
    (fun result ci =>
      assocSet result ci.key ⟨ci.title, ci.url, RuleVal.func (rulesGet ci.rule)⟩)
    PRESET_INDICATORS

/-- Embeds the `sig` computation of `_signal_from_rows`
(`bot.py:273-316`): callable rules are applied to the row; string rule codes
are dispatched on their uppercase form with the FOMC code comparing actual
versus previous; unrecognized codes yield the descriptive label; a missing
rule yields the fixed message.  All embedded callables are total, so the
enclosing `except` branch (`"Ошибка правила: ..."`) is unreachable. -/
def signalSig (rule : RuleVal) (row : Row) : String :=
  match rule with
  | RuleVal.func f => f row
  | RuleVal.code s =>
    let r := pyUpperStr s
    if r = "FOMC" then
      match row.actual_val, row.previous_val with
      | some a, some p =>
        if a > p then "Повышение ставки"
        else if a < p then "Снижение ставки"
        else "Без изменений"
      | _, _ => "⏳ Ждём цифры по ставке."
    else if r = "LT" then
      match row.actual_val, row.forecast_val with
      | some a, some f =>
        if a < f then "Лучше прогноза (меньше — лучше)"
        else if a > f then "Хуже прогноза (меньше — лучше)"
        else "На уровне прогноза"
      | _, _ => "Ждём факт/прогноз"
    else if r = "GT" then
      match row.actual_val, row.forecast_val with
      | some a, some f =>
        if a > f then "Лучше прогноза (больше — лучше)"
        else if a < f then "Хуже прогноза (больше — лучше)"
        else "На уровне прогноза"
      | _, _ => "Ждём факт/прогноз"
    else "Правило " ++ r ++ " не распознано"
  | RuleVal.null => "Правило не задано"

/-! ### Table locator (`_score_heads`, `_pick_target_table`) -/

/-- A parsed `<table>`: the texts of its `thead th` cells and of the `td`
cells of each `tbody tr` (text extraction via BeautifulSoup `get_text` is the
oracle boundary). -/
structure HtmlTable where
  theadTh : List String
  tbodyRows : List (List String)
deriving DecidableEq, Repr

def HEAD_ACTUAL_KEYS : List String := ["actual", "факт", "фактич"]

def HEAD_FORECAST_KEYS : List String :=
  ["forecast", "прогноз", "estimate", "consensus", "est.", "exp.", "expectation"]

def HEAD_PREV_KEYS : List String := ["previous", "prior", "пред.", "пред", "предыдущ"]

/-- Embeds `_score_heads`: +5 per keyword family found in the joined header
line. -/
def scoreHeads (heads : List String) : Int :=
  let line := " ".intercalate heads
  (if HEAD_ACTUAL_KEYS.any (fun k => containsStr line k) then 5 else 0) +
  (if HEAD_FORECAST_KEYS.any (fun k => containsStr line k) then 5 else 0) +
  (if HEAD_PREV_KEYS.any (fun k => containsStr line k) then 5 else 0)

/-- The lowercased `thead th` texts of a table. -/
def headsOf (tb : HtmlTable) : List String := tb.theadTh.map pyLowerStr

/-- The score assigned to one candidate table
(`sc = _score_heads(heads) if heads else 0`). -/
def scoreOf (tb : HtmlTable) : Int :=
  if (headsOf tb).isEmpty then 0 else scoreHeads (headsOf tb)

/-- One entry of the diagnostic candidate list. -/
structure DiagCandidate where
  heads : List String
  score : Int
deriving DecidableEq, Repr

/-- The `picked` entry of the diagnostic. -/
structure PickedInfo where
  heads : List String
  score : Int
  fallbackNote : Option String
deriving DecidableEq, Repr

/-- The diagnostic dict built by `_pick_target_table` and extended by
`fetch_table_rows` (`col_indexing`). -/
structure Diag where
  tablesFound : Nat
  note : Option String := none
  candidates : List DiagCandidate := []
  picked : Option PickedInfo := none
  colIdx : Option (Int × Int × Int) := none
deriving DecidableEq, Repr

/-- Rendering of the diagnostic into error strings.  The Python code embeds
the dict's own `repr`; only the stage tag preceding the diagnostic is relied
upon by clients, so this rendering is a faithful-in-content but
format-simplified serialization (it avoids brace characters). -/
def reprDiag (d : Diag) : String :=
  "tables_found=" ++ toString d.tablesFound ++
  (match d.note with | some n => "; note=" ++ n | none => "") ++
  "; candidates=" ++ toString (d.candidates.map (fun c => (c.heads, c.score))) ++
  (match d.picked with
   | some p => "; picked=" ++ toString (p.heads, p.score) ++
       (match p.fallbackNote with | some f => "; fallback=" ++ f | none => "")
   | none => "") ++
  (match d.colIdx with | some ix => "; col_indexing=" ++ toString ix | none => "")

/-- One step of the best-scoring-table scan (`if sc > best[2]`). -/
def pickStep (best : Option HtmlTable × List String × Int) (tb : HtmlTable) :
    Option HtmlTable × List String × Int :=
  if scoreOf tb > best.2.2 then (some tb, headsOf tb, scoreOf tb) else best

/-- The first phase of `_pick_target_table`: fold over all tables starting
from `(None, [], -1)`. -/
def pickFold (tables : List HtmlTable) : Option HtmlTable × List String × Int :=
  tables.foldl pickStep (none, [], -1)

/-- The row-shape test of the fallback phase: at least five cells, one of
which contains a `%` or a digit (cells are lowercased first, which does not
change this test but mirrors the code). -/
def rowShapeOk (tds : List String) : Bool :=
  tds.length ≥ 5 &&
    tds.any (fun x => x.toList.contains '%' || x.toList.any Char.isDigit)

/-- Does one of the first three body rows of the table pass the row-shape
test? -/
def hasFallbackRow (tb : HtmlTable) : Bool :=
  (tb.tbodyRows.take 3).any (fun tr => rowShapeOk (tr.map pyLowerStr))

/-- The two fallback phases of `_pick_target_table`: first table with a
data-shaped body row, else the last table in the document. -/
def fallbackPhase (tables : List HtmlTable) (diag0 : Diag) :
    Option HtmlTable × Option (List String) × Diag :=
  match tables.find? hasFallbackRow with
  | some tb =>
    let heads := headsOf tb
    (some tb, some heads, { diag0 with picked := some ⟨heads, 1, some "True"⟩ })
  | none =>
    match tables.getLast? with
    | some tb =>
      let heads := headsOf tb
      (some tb, some heads, { diag0 with picked := some ⟨heads, 0, some "last_table"⟩ })
    | none => (none, none, diag0)

/-- Embeds `_pick_target_table(soup)`: `(table, headerTexts, diagnostic)`;
the table is `none` only when the document holds zero tables. -/
def pickTargetTable (tables : List HtmlTable) :
    Option HtmlTable × Option (List String) × Diag :=
  if tables.isEmpty then
    (none, none,
      { tablesFound := 0, note := some "[TABLE] no <table> found" })
  else
    let cands := tables.map (fun tb => (⟨headsOf tb, scoreOf tb⟩ : DiagCandidate))
    let diag0 : Diag := { tablesFound := tables.length, candidates := cands }
    let best := pickFold tables
    match best.1 with
    | some tb =>
      if best.2.2 > 0 then
        (some tb, some best.2.1, { diag0 with picked := some ⟨best.2.1, best.2.2, none⟩ })
      else fallbackPhase tables diag0
    | none => fallbackPhase tables diag0

/-! ### Row extractor and fetch pipeline (`fetch_table_rows`, `_get`) -/

/-- Embeds `_idx_for(heads, keys, default)`: index of the first header
containing one of the keywords, else the (negative) default. -/
def idxFor (heads : List String) (keys : List String) (dflt : Int) : Int :=
  match heads.findIdx? (fun h => keys.any (fun k => containsStr h k)) with
  | some i => (i : Int)
  | none => dflt

/-- Python list indexing with negative indices and `IndexError` caught to
`""` (the `cell(i)` helper of `fetch_table_rows`). -/
def pyIndex (vals : List String) (i : Int) : String :=
  if i ≥ 0 then ((vals.get? i.toNat).getD "")
  else
    let j : Int := (vals.length : Int) + i
    if j ≥ 0 then ((vals.get? j.toNat).getD "") else ""

/-- Embeds `_clean`: `_normalize_spaces` then `replace("  ", " ")`. -/
def cleanStr (s : String) : String :=
  let cs := normalizeSpaces s
  String.mk (pyReplace (cs.length + 1) cs [' ', ' '] [' '])

/-- Case-insensitive literal match at the head of the input (Python `re.I`
on literal words); returns the remaining input. -/
def matchLit : List Char → List Char → Option (List Char)
  | [], cs => some cs
  | _ :: _, [] => none
  | p :: ps, c :: cs => if pyLower c = pyLower p then matchLit ps cs else none

/-- Regex `\s+` (at least one whitespace character), greedy. -/
def skipWs1 : List Char → Option (List Char)
  | [] => none
  | c :: rest => if isPySpace c then some (rest.dropWhile isPySpace) else none

/-- Match a sequence of literal words separated by `\s+`, case-insensitively;
greediness is deterministic because the word characters are not
whitespace. -/
def matchPhrase : List String → List Char → Option (List Char)
  | [], cs => some cs
  | [w], cs => matchLit w.toList cs
  | w :: ws, cs =>
    match matchLit w.toList cs with
    | none => none
    | some r =>
      match skipWs1 r with
      | none => none
      | some r2 => matchPhrase ws r2

/-- The capture of `RE_REVISED` when its pattern
`(?:revised\s+from|пересмотрено\s+с)\s+([^\s].*)` matches at the current
position (`.` stops at a newline). -/
def revisedAt (cs : List Char) : Option (List Char) :=
  let kw :=
    match matchPhrase ["revised", "from"] cs with
    | some r => some r
    | none => matchPhrase ["пересмотрено", "с"] cs
  match kw with
  | none => none
  | some r =>
    match skipWs1 r with
    | none => none
    | some r2 =>
      match r2 with
      | [] => none
      | c :: rest =>
        if isPySpace c then none else some (c :: rest.takeWhile (· ≠ '\n'))

/-- Leftmost search of `RE_REVISED`. -/
def searchRevisedAux : Nat → List Char → Option (List Char)
  | 0, _ => none
  | fuel + 1, cs =>
    match revisedAt cs with
    | some g => some g
    | none =>
      match cs with
      | [] => none
      | _ :: t => searchRevisedAux fuel t

/-- Embeds `_parse_revised(text)`: the scalar parsed from the stripped
capture of `RE_REVISED`, or `(None, None)`. -/
def parseRevised (text : String) : Option ℚ × Option UnitTag :=
  if text = "" then (none, none)
  else
    match searchRevisedAux (text.toList.length + 1) text.toList with
    | none => (none, none)
    | some g => toScalar (String.mk (pyStrip g))

/-- The `_MONTHS` month-name table (note: the source has no entry for
"окт", October, in the Russian block; this omission is preserved). -/
def MONTHS : List (String × Nat) :=
  [("jan", 1), ("feb", 2), ("mar", 3), ("apr", 4), ("may", 5), ("jun", 6),
   ("jul", 7), ("aug", 8), ("sep", 9), ("oct", 10), ("nov", 11), ("dec", 12),
   ("янв", 1), ("фев", 2), ("мар", 3), ("апр", 4), ("май", 5), ("июн", 6),
   ("июл", 7), ("авг", 8), ("сен", 9), ("ноя", 11), ("дек", 12)]

/-- Greedy `\d{1,2}` at the head of the input. -/
def takeUpTo2Digits : List Char → Option (Nat × List Char)
  | [] => none
  | c1 :: rest =>
    if c1.isDigit then
      match rest with
      | c2 :: rest2 =>
        if c2.isDigit then some (digitsToNat [c1, c2], rest2)
        else some (digitsToNat [c1], rest)
      | [] => some (digitsToNat [c1], [])
    else none

/-- The numeric date pattern `^(\d{1,2})[sep](\d{1,2})[sep](\d{2,4})$` where `[sep]` is the class of period, slash, hyphen. -/
def parseDateNumeric (cs : List Char) : Option (Nat × Nat × Nat) :=
  match takeUpTo2Digits cs with
  | none => none
  | some (d, r1) =>
    match r1 with
    | s1 :: r2 =>
      if s1 = '.' || s1 = '/' || s1 = '-' then
        match takeUpTo2Digits r2 with
        | none => none
        | some (m, r3) =>
          match r3 with
          | s2 :: r4 =>
            if s2 = '.' || s2 = '/' || s2 = '-' then
              if r4.all Char.isDigit ∧ 2 ≤ r4.length ∧ r4.length ≤ 4 then
                some (d, m, digitsToNat r4)
              else none
            else none
          | [] => none
      else none
    | [] => none

/-- The month character class `[A-Za-zА-Яа-я.]` of the textual date
pattern. -/
def isMonthChar (c : Char) : Bool :=
  ('A' ≤ c && c ≤ 'Z') || ('a' ≤ c && c ≤ 'z') ||
  ('А' ≤ c && c ≤ 'Я') || ('а' ≤ c && c ≤ 'я') || c = '.'

/-- The textual date pattern
`^(\d{1,2})\s+([A-Za-zА-Яа-я.]{3,})\s+(\d{2,4})$`; the month token is then
looked up in `_MONTHS` after stripping periods and lowercasing. -/
def parseDateTextual (cs : List Char) : Option (Nat × Nat × Nat) :=
  match takeUpTo2Digits cs with
  | none => none
  | some (d, r1) =>
    match skipWs1 r1 with
    | none => none
    | some r2 =>
      let mon := r2.takeWhile isMonthChar
      let r3 := r2.dropWhile isMonthChar
      if mon.length < 3 then none
      else
        match skipWs1 r3 with
        | none => none
        | some r4 =>
          if r4.all Char.isDigit ∧ 2 ≤ r4.length ∧ r4.length ≤ 4 then
            let monTxt := String.mk ((pyStripSet ['.'] mon).map pyLower)
            match (MONTHS.find? (·.1 == monTxt)).map (·.2) with
            | some m => some (d, m, digitsToNat r4)
            | none => none
          else none

/-- Days per month with leap years, as validated by `datetime`. -/
def daysInMonth (year month : Nat) : Nat :=
  if month = 2 then
    if year % 4 = 0 ∧ (year % 100 ≠ 0 ∨ year % 400 = 0) then 29 else 28
  else if month = 4 ∨ month = 6 ∨ month = 9 ∨ month = 11 then 30
  else 31

/-- Four-digit zero padding. -/
def pad4 (n : Nat) : String :=
  if n < 10 then "000" ++ toString n
  else if n < 100 then "00" ++ toString n
  else if n < 1000 then "0" ++ toString n
  else toString n

/-- Embeds `_to_iso(date_text, time_text)`.  The timezone global `_tz` is
modelled as Europe/Moscow (fixed UTC+3, its offset since 2014), so the
rendered ISO string carries the `+03:00` suffix; an invalid date or time
(where `datetime(...)` would raise) yields `none`. -/
def toIso (dateText timeText : String) : Option String :=
  if dateText = "" || timeText = "" then none
  else
    let d := (cleanStr dateText).toList
    let t := ((cleanStr timeText).toList.take 5)
    let dmy :=
      match parseDateNumeric d with
      | some r => some r
      | none => parseDateTextual d
    match dmy with
    | none => none
    | some (day, month, year0) =>
      let year := if year0 < 100 then year0 + 2000 else year0
      let hm :=
        match takeUpTo2Digits t with
        | some (hh, ':' :: m1 :: m2 :: rest) =>
          if m1.isDigit ∧ m2.isDigit ∧ rest.isEmpty then
            some (hh, digitsToNat [m1, m2])
          else none
        | _ => none
      let (hh, mm) := hm.getD (0, 0)
      if 1 ≤ year ∧ year ≤ 9999 ∧ 1 ≤ month ∧ month ≤ 12 ∧
          1 ≤ day ∧ day ≤ daysInMonth year month ∧ hh ≤ 23 ∧ mm ≤ 59 then
        some (pad4 year ++ "-" ++ pad2 month ++ "-" ++ pad2 day ++ "T" ++
          pad2 hh ++ ":" ++ pad2 mm ++ ":00+03:00")
      else none

/-- Assemble one `Row` from the cell texts of one body row (the loop body of
`fetch_table_rows` for a row with at least five cells). -/
def buildRow (vals : List String) (idxA idxF idxP : Int) : Row :=
  let dateText := pyIndex vals 0
  let timeText := pyIndex vals 1
  let actualText := pyIndex vals idxA
  let forecastText := pyIndex vals idxF
  let previousText := pyIndex vals idxP
  let av := toScalar actualText
  let fv := toScalar forecastText
  let pv := toScalar previousText
  let rv := parseRevised actualText
  { date := cleanStr dateText
    time := cleanStr timeText
    actual := cleanStr actualText
    forecast := cleanStr forecastText
    previous := cleanStr previousText
    actual_val := av.1, actual_unit := av.2
    forecast_val := fv.1, forecast_unit := fv.2
    previous_val := pv.1, previous_unit := pv.2
    revised_from_val := rv.1
    revised_from_unit := if rv.1.isSome then rv.2 else none
    release_dt_iso := toIso (cleanStr dateText) (cleanStr timeText) }

/-- The body-row loop of `fetch_table_rows`: collects rows with at least
five cells, counting the rejected ones. -/
def extractRows (trs : List (List String)) (idxA idxF idxP : Int) : List Row × Nat :=
  trs.foldl
    (fun acc tds =>
      if tds.length < 5 then (acc.1, acc.2 + 1)
      else (acc.1 ++ [buildRow tds idxA idxF idxP], acc.2))
    ([], 0)

/-- One HTTP attempt as seen by `_get`: the outcome of the cloudscraper call
and of the plain-requests call, each either a raised-exception text or a
status code with a body. -/
structure Attempt where
  cloud : Except String (Nat × String)
  reqs : Except String (Nat × String)

/-- Result quadruple of `_get`: status code, body, error, note. -/
abbrev GetOut := Nat × Option String × Option String × String

/-- The cloudscraper half of one `_get` attempt: a 200 response with a
non-empty body succeeds; otherwise the error note is recorded
(`last_err = "[NET] cloudscraper ..."`). -/
def cloudStep (i : Nat) (a : Attempt) (notes : List String) :
    Option (Nat × String) × Option String × List String :=
  match a.cloud with
  | Except.ok (st, txt) =>
    let notes1 := notes ++ ["try" ++ toString i ++ ": cloudscraper -> HTTP " ++ toString st]
    if st = 200 ∧ txt ≠ "" then (some (st, txt), none, notes1)
    else (none, some ("[NET] cloudscraper HTTP " ++ toString st), notes1)
  | Except.error e =>
    (none, some ("[NET] cloudscraper fail: " ++ e),
      notes ++ ["[NET] cloudscraper fail: " ++ e])

/-- The plain-requests half of one `_get` attempt
(`last_err = "[NET] requests ..."` on failure). -/
def reqsStep (i : Nat) (a : Attempt) (notes : List String) :
    Option (Nat × String) × Option String × List String :=
  match a.reqs with
  | Except.ok (st, txt) =>
    let notes1 := notes ++ ["try" ++ toString i ++ ": requests -> HTTP " ++ toString st]
    if st = 200 ∧ txt ≠ "" then (some (st, txt), none, notes1)
    else (none, some ("[NET] requests HTTP " ++ toString st), notes1)
  | Except.error e =>
    (none, some ("[NET] requests fail: " ++ e),
      notes ++ ["[NET] requests fail: " ++ e])

/-- The retry loop of `_get` over the (indexed) attempts.  On an attempt
where both halves fail, `last_err` is the requests-half error (Python
overwrites the cloudscraper error before looping). -/
def getLoop : List (Nat × Attempt) → Option String → List String → GetOut
  | [], le, notes =>
    (0, none, some (le.getD "[NET] network error"), "; ".intercalate notes)
  | (i, a) :: rest, _, notes =>
    match cloudStep i a notes with
    | (some (st, txt), _, notes1) => (st, some txt, none, "; ".intercalate notes1)
    | (none, _, notes1) =>
      match reqsStep i a notes1 with
      | (some (st, txt), _, notes2) => (st, some txt, none, "; ".intercalate notes2)
      | (none, reqErr, notes2) => getLoop rest reqErr notes2

/-- Embeds `_get(url)`: three attempts (the URL is abstracted into the
attempt outcomes; the backoff sleeps have no observable effect). -/
def getEmbed (a1 a2 a3 : Attempt) : GetOut :=
  getLoop [(1, a1), (2, a2), (3, a3)] none []

/-- The row-extraction phase of `fetch_table_rows`, after a table has been
located: resolve the column indices from the header texts, extract the rows,
and either truncate to the limit or report the `[ROW]` failure. -/
def fetchRowsPhase (target : HtmlTable) (heads : List String) (diag : Diag)
    (limit : Nat) : List Row × Option String :=
  let idxA := idxFor heads HEAD_ACTUAL_KEYS (-3)
  let idxF := idxFor heads HEAD_FORECAST_KEYS (-2)
  let idxP := idxFor heads HEAD_PREV_KEYS (-1)
  let diag1 := { diag with colIdx := some (idxA, idxF, idxP) }
  match extractRows target.tbodyRows idxA idxF idxP with
  | (rows, badRows) =>
    if rows.isEmpty then
      ([], some ("[ROW] no rows parsed | diag: " ++ reprDiag diag1 ++
        " | bad_rows: " ++ toString badRows))
    else (rows.take limit, none)

/-- The table-location phase of `fetch_table_rows`: locate the target table
(`[TABLE]` failure when the document has none) and hand it to the
row-extraction phase with `heads_for_log or []`. -/
def fetchAfterParse (tables : List HtmlTable) (limit : Nat) :
    List Row × Option String :=
  match pickTargetTable tables with
  | (none, _, diag) => ([], some ("[TABLE] not found | diag: " ++ reprDiag diag))
  | (some target, headsForLog, diag) =>
    fetchRowsPhase target (headsForLog.getD []) diag limit

/-- Embeds `fetch_table_rows(url, limit)`.  `net` is the `_get` result;
`parse` is the BeautifulSoup oracle: the parsed list of tables, or the text
of a raised exception. -/
def fetchTableRows (net : GetOut) (parse : Except String (List HtmlTable))
    (limit : Nat) : List Row × Option String :=
  match net with
  | (code, html, netErr, netNote) =>
    if code ≠ 200 ∨ html.getD "" = "" then
      ([], some ((netErr.getD "[NET] HTTP error") ++ " | note: " ++ netNote))
    else
      match parse with
      | Except.error e => ([], some ("[HTML] soup fail: " ++ e))
      | Except.ok tables => fetchAfterParse tables limit

/-! ### Altseason index (`parser_altseason.py`) -/

/-- Embeds `classify_altseason(value)`: status label and tip. -/
def classifyAltseason (value : Int) : String × String :=
  if value ≤ 25 then ("🔵 Сезон биткоина", "Преимущество за BTC-парами.")
  else if value ≥ 75 then ("🟢 Альтсезон", "Альты часто обгоняют BTC. Риски выше.")
  else if value ≥ 69 then
    ("🟡 Близко к альтсезону", "Следим: >69 — разморозка альтов, >75 — горячая фаза.")
  else ("⚪️ Нейтральная зона", "Явного преимущества нет.")

/-- The matches of `(?<!\d)(\d{1,3})(?!\d)` with positions: exactly the
maximal digit runs of length at most three (longer runs yield no match at
any of their positions).  Result pairs are `(value, start position)`;
`fuel` is instantiated with the input length plus one. -/
def digitRunsUpTo3 : Nat → List Char → Nat → List (Nat × Nat)
  | 0, _, _ => []
  | _ + 1, [], _ => []
  | fuel + 1, c :: rest, pos =>
    if c.isDigit then
      let run := c :: rest.takeWhile Char.isDigit
      let rest' := rest.dropWhile Char.isDigit
      (if run.length ≤ 3 then [(digitsToNat run, pos)] else []) ++
        digitRunsUpTo3 fuel rest' (pos + run.length)
    else digitRunsUpTo3 fuel rest (pos + 1)

/-- Embeds `_find_numbers_0_100(text)`: all numbers 0..100 with their text
positions (`0 ≤ v` holds by construction over `Nat`). -/
def findNumbers0to100 (cs : List Char) : List (Nat × Nat) :=
  (digitRunsUpTo3 (cs.length + 1) cs 0).filter (fun p => p.1 ≤ 100)

/-- The suffix `[^\d]{0,40}(\d{1,3})` of the direct pattern: at most forty
non-digit characters, then one to three digits (greedy, with nothing
following).  Deterministic: the bounded class excludes digits, so the only
viable gap is the run up to the first digit. -/
def directNumAfter (cs : List Char) : Option Nat :=
  let gap := cs.takeWhile (fun c => !c.isDigit)
  if gap.length ≤ 40 then
    let rest := cs.dropWhile (fun c => !c.isDigit)
    match rest with
    | [] => none
    | _ => some (digitsToNat ((rest.takeWhile Char.isDigit).take 3))
  else none

/-- One position of the direct pattern
`(Altcoin\s+Season\s+Index|Индекс\s+сезона\s+альткоинов)[^\d]{0,40}(\d{1,3})`
under `re.I`: each alternative is tried with its suffix (Python backtracks
into the second alternative when the first one's suffix fails). -/
def directAt (cs : List Char) : Option Nat :=
  match (matchPhrase ["altcoin", "season", "index"] cs).bind directNumAfter with
  | some v => some v
  | none => (matchPhrase ["индекс", "сезона", "альткоинов"] cs).bind directNumAfter

/-- Leftmost search of the direct pattern. -/
def searchDirectAux : Nat → List Char → Option Nat
  | 0, _ => none
  | fuel + 1, cs =>
    match directAt cs with
    | some v => some v
    | none =>
      match cs with
      | [] => none
      | _ :: t => searchDirectAux fuel t

/-- The anchor keywords scanned by `_extract_index_heuristic`. -/
def anchorKeywords : List String :=
  ["Сейчас", "текущ", "current", "Now", "Altcoin Season Index",
   "Индекс сезона альткоинов"]

/-- `re.finditer` of one literal keyword, case-insensitively,
non-overlapping: the start positions of its matches. -/
def findOccurrences (kw : List Char) : Nat → Nat → List Char → List Nat
  | 0, _, _ => []
  | _ + 1, _, [] => []
  | fuel + 1, pos, c :: t =>
    match matchLit kw (c :: t) with
    | some _ => pos :: findOccurrences kw fuel (pos + kw.length) ((c :: t).drop kw.length)
    | none => findOccurrences kw fuel (pos + 1) t

/-- All anchor positions, keyword by keyword. -/
def anchorPositions (cs : List Char) : List Nat :=
  anchorKeywords.foldl
    (fun acc kw => acc ++ findOccurrences kw.toList (cs.length + 1) 0 cs) []

/-- Distance of a text position to the nearest anchor (`dist` in the
source); only called with a non-empty anchor list. -/
def distToAnchors (anchors : List Nat) (np : Nat) : Nat :=
  match anchors with
  | [] => 0
  | a :: rest =>
    rest.foldl (fun m x => min m (if np ≥ x then np - x else x - np))
      (if np ≥ a then np - a else a - np)

/-- Python `min(candidates, key=...)`: the first element attaining the
minimal key. -/
def minByDist (anchors : List Nat) : List (Nat × Nat) → Option (Nat × Nat)
  | [] => none
  | x :: rest =>
    some (rest.foldl
      (fun best y =>
        if distToAnchors anchors y.2 < distToAnchors anchors best.2 then y else best)
      x)

/-- The `filtered` list of strategy 2: the numbers that are not one of the
threshold constants 0, 25, 75, 100. -/
def numsExcludingThresholds (nums : List (Nat × Nat)) : List (Nat × Nat) :=
  nums.filter (fun p => !(p.1 = 0 || p.1 = 25 || p.1 = 75 || p.1 = 100))

/-- Strategy 2: `min(filtered or nums, key=dist-to-anchor)`. -/
def nearestToAnchor (anchors : List Nat) (nums : List (Nat × Nat)) :
    Option (Nat × Nat) :=
  minByDist anchors
    (if (numsExcludingThresholds nums).isEmpty then nums
     else numsExcludingThresholds nums)

/-- Strategies 2-4 of `_extract_index_heuristic`, after the direct pattern
has not produced an in-range value.  (The Python `min` of strategy 2 is
always applied to a non-empty list, so the `none` arm is dead code; it is
given the first number, which keeps the function total.) -/
def extractIndexFallback (cs : List Char) : Except String Nat :=
  match findNumbers0to100 cs with
  | [] => Except.error "Не нашли чисел 0–100 на странице"
  | first :: rest =>
    if !(anchorPositions cs).isEmpty then
      match nearestToAnchor (anchorPositions cs) (first :: rest) with
      | some p => Except.ok p.1
      | none => Except.ok first.1
    else
      match (first :: rest).find?
          (fun p => 30 ≤ p.1 && p.1 ≤ 90 && p.1 ≠ 25 && p.1 ≠ 75) with
      | some p => Except.ok p.1
      | none => Except.ok first.1

/-- Embeds `_extract_index_heuristic(html)` from the page's visible text
(`soup.get_text` is the oracle boundary): the direct pattern, then the
nearest-to-anchor pick, then the 30..90 scan, then the first number found;
a raised `ValueError` is the `Except.error` case. -/
def extractIndexHeuristic (text : String) : Except String Nat :=
  match searchDirectAux (text.toList.length + 1) text.toList with
  | some v => if v ≤ 100 then Except.ok v else extractIndexFallback text.toList
  | none => extractIndexFallback text.toList

/-! ### Altseason stats (`fetch_altseason_stats`, `_match_key`) -/

/-- Regex `\s+` replacement by a single space (`re.sub(r"\s+", " ", ...)`);
`fuel` is instantiated with the input length plus one. -/
def collapseWs : Nat → List Char → List Char
  | 0, cs => cs
  | _ + 1, [] => []
  | fuel + 1, c :: rest =>
    if isPySpace c then ' ' :: collapseWs fuel (rest.dropWhile isPySpace)
    else c :: collapseWs fuel rest

/-- Embeds `_normalize(s)`: strip, lowercase, collapse whitespace runs. -/
def normalizeLabel (s : String) : String :=
  let cs := (pyStrip s.toList).map pyLower
  String.mk (collapseWs (cs.length + 1) cs)

/-- The `_LABEL_VARIANTS` table (exact label variants per metric key, in
source order). -/
def LABEL_VARIANTS : List (String × List String) :=
  [("days_since_last", ["days since last season", "дней с прошлого сезона"]),
   ("avg_between",
     ["average days between seasons", "среднее количество дней между сезонами"]),
   ("longest_without",
     ["longest period without a season", "самая длинная серия без сезона"]),
   ("avg_length",
     ["average season length (days)", "average length of season (days)",
      "средняя продолжительность сезона (дней)",
      "средняя длительность сезона (дней)"]),
   ("longest_length", ["longest season (days)", "самый длинный сезон (дни)"]),
   ("total_days",
     ["total number of days in season", "total days of season",
      "общее количество дней сезона"])]

/-- The `_KEYWORDS` table (fuzzy keyword bundles per metric key, in source
order). -/
def KEYWORD_BUNDLES : List (String × List (List String)) :=
  [("days_since_last", [["days", "since", "last"], ["дней", "прошлого"]]),
   ("avg_between", [["average", "between"], ["средн", "между"]]),
   ("longest_without", [["longest", "without"], ["самая", "длин", "без"]]),
   ("avg_length", [["average", "length"], ["средн", "длитель"]]),
   ("longest_length", [["longest", "season"], ["самый", "длин", "сезон"]]),
   ("total_days", [["total", "number", "days"], ["общее", "колич", "дней"]])]

/-- Embeds `_match_key(label_norm)`: first the exact variants (normalized,
substring test), then the keyword bundles (every keyword a substring). -/
def matchKey (labelNorm : String) : Option String :=
  match LABEL_VARIANTS.find?
      (fun kv => kv.2.any (fun v => containsStr labelNorm (normalizeLabel v))) with
  | some kv => some kv.1
  | none =>
    match KEYWORD_BUNDLES.find?
        (fun kb => kb.2.any (fun kws => kws.all (fun kw => containsStr labelNorm kw))) with
    | some kb => some kb.1
    | none => none

/-- Python `int()` on the character shapes surviving
`re.sub(r"[^\d-]", "", s)`: an optional single leading minus and at least
one digit, nothing else. -/
def pyInt (cs : List Char) : Option Int :=
  match cs with
  | '-' :: rest =>
    if rest ≠ [] ∧ rest.all Char.isDigit then some (-(digitsToNat rest : Int)) else none
  | _ =>
    if cs ≠ [] ∧ cs.all Char.isDigit then some ((digitsToNat cs : Int)) else none

/-- Embeds `_parse_int(s)`. -/
def parseIntPy (s : String) : Option Int :=
  let t := pyStrip s.toList
  if t.isEmpty || ["none", "n/a", "-", "—"].contains (String.mk (t.map pyLower)) then none
  else pyInt (t.filter (fun c => c.isDigit || c = '-'))

/-- The `required` key set of `fetch_altseason_stats`, already in the
`sorted(required)` order used to build the error message. -/
def requiredSorted : List String :=
  ["avg_between", "avg_length", "days_since_last", "longest_length",
   "longest_without", "total_days"]

/-- One iteration of the stats row loop: rows without exactly three cells
are skipped (`if len(tds) != 3: continue`, modelled by the three-element
pattern); otherwise the first cell's normalized label is matched and, on
success, the parsed pair is stored (later rows overwrite earlier ones, as
Python dict assignment does). -/
def statsRowStep (st : List (String × Option Int × Option Int)) (tds : List String) :
    List (String × Option Int × Option Int) :=
  match tds with
  | [l, av, bv] =>
    match matchKey (normalizeLabel l) with
    | some k => assocSet st k (parseIntPy av, parseIntPy bv)
    | none => st
  | _ => st

/-- Python dict membership `k in stats`. -/
def containsKey (l : List (String × α)) (k : String) : Bool :=
  l.any (fun p => p.1 == k)

/-- Embeds the row-scanning and validation part of `fetch_altseason_stats`
on the located table's `tr` list (the first row, the header, is skipped by
`[1:]`); a raised `RuntimeError` is the `Except.error` case. -/
def statsScan (trs : List (List String)) :
    Except String (List (String × Option Int × Option Int)) :=
  let stats := (trs.drop 1).foldl statsRowStep []
  let missing := requiredSorted.filter (fun k => !containsKey stats k)
  if missing.isEmpty then Except.ok stats
  else Except.error ("Не удалось распознать метрики таблицы: " ++ ", ".intercalate missing)

/-- Claim-side predicate (from the words of the missing-metric claim): does
this scanned three-cell row's label match the metric key? -/
def rowMatchesKey (tds : List String) (k : String) : Bool :=
  match tds with
  | [l, _, _] => matchKey (normalizeLabel l) == some k
  | _ => false

/-- Claim-side definition (from the words of the missing-metric claim): the
required keys for which no scanned three-cell row's label matches. -/
def specUnmatchedKeys (trs : List (List String)) : List String :=
  requiredSorted.filter (fun k => !(trs.drop 1).any (fun tds => rowMatchesKey tds k))

/-! ## Claim theorems

`Rat.mul`, `Rat.inv`, `Rat.add` and `Rat.sub` are `@[irreducible]` in the
library; the `unseal` modifiers below only restore their default
reducibility so that `decide` can evaluate the embedded functions on
concrete inputs.
-/

/-- Claim C1 (amended): the string rule code "FOMC" dispatched by
`_signal_from_rows` compares actual against previous and yields the rate
hike / rate cut / unchanged labels with the forecast not consulted; but the
built-in FOMC_RATE catalog entry carries the callable `_rule_fomc_rate`,
which compares actual against FORECAST, yielding "LONG" when
actual < forecast, "SHORT" when actual ≥ forecast, and "NEUTRAL" when either
value is missing (the previous value not consulted); evaluation is total, so
it never raises. -/
theorem C1_amended (row : Row) :
    (signalSig (RuleVal.code "FOMC") row = "Повышение ставки" ↔
      ∃ a p, row.actual_val = some a ∧ row.previous_val = some p ∧ a > p) ∧
    (signalSig (RuleVal.code "FOMC") row = "Снижение ставки" ↔
      ∃ a p, row.actual_val = some a ∧ row.previous_val = some p ∧ a < p) ∧
    (signalSig (RuleVal.code "FOMC") row = "Без изменений" ↔
      ∃ a, row.actual_val = some a ∧ row.previous_val = some a) ∧
    ((lookupInd PRESET_INDICATORS "FOMC_RATE").map (fun ind => signalSig ind.rule row) =
        some "LONG" ↔
      ∃ a f, row.actual_val = some a ∧ row.forecast_val = some f ∧ a < f) ∧
    ((lookupInd PRESET_INDICATORS "FOMC_RATE").map (fun ind => signalSig ind.rule row) =
        some "SHORT" ↔
      ∃ a f, row.actual_val = some a ∧ row.forecast_val = some f ∧ f ≤ a) ∧
    ((lookupInd PRESET_INDICATORS "FOMC_RATE").map (fun ind => signalSig ind.rule row) =
        some "NEUTRAL" ↔
      (row.actual_val = none ∨ row.forecast_val = none)) := by
  have hsig : signalSig (RuleVal.code "FOMC") row =
      (match row.actual_val, row.previous_val with
       | some a, some p =>
         if a > p then "Повышение ставки"
         else if a < p then "Снижение ставки"
         else "Без изменений"
       | _, _ => "⏳ Ждём цифры по ставке.") := rfl
  have hcat : (lookupInd PRESET_INDICATORS "FOMC_RATE").map
      (fun ind => signalSig ind.rule row) = some (ruleFomcRate row) := rfl
  rw [hsig, hcat]
  constructor
  · rcases hA : row.actual_val with _ | a <;> rcases hP : row.previous_val with _ | p <;> simp
    rcases lt_trichotomy a p with h | h | h
    · simp [h, h.ne, h.ne', not_lt.mpr h.le]
    · subst h; simp
    · simp [h, h.ne, h.ne', not_lt.mpr h.le]
  constructor
  · rcases hA : row.actual_val with _ | a <;> rcases hP : row.previous_val with _ | p <;> simp
    rcases lt_trichotomy a p with h | h | h
    · simp [h, h.ne, h.ne', not_lt.mpr h.le]
    · subst h; simp
    · simp [h, h.ne, h.ne', not_lt.mpr h.le]
  constructor
  · rcases hA : row.actual_val with _ | a <;> rcases hP : row.previous_val with _ | p <;> simp
    rcases lt_trichotomy a p with h | h | h
    · simp [h, h.ne, h.ne', not_lt.mpr h.le]
    · subst h; simp
    · simp [h, h.ne, h.ne', not_lt.mpr h.le]
  unfold ruleFomcRate
  rcases hA : row.actual_val with _ | a <;> rcases hF : row.forecast_val with _ | f <;> simp
  rcases lt_trichotomy a f with h | h | h
  · simp [h, h.ne, h.ne', not_lt.mpr h.le, not_le.mpr h]
  · subst h; simp
  · simp [h, h.ne, h.ne', not_lt.mpr h.le, h.le]

/-- A row with actual 5.5, forecast 6.0, previous 5.25 (an actual above the
previous value, so the claim predicts a rate-hike label for the FOMC
rule). -/
def rowFomcA : Row :=
  { actual_val := some (11 / 2), forecast_val := some 6, previous_val := some (21 / 4) }

/-- The same row with only the forecast changed to 5.0. -/
def rowFomcB : Row :=
  { actual_val := some (11 / 2), forecast_val := some 5, previous_val := some (21 / 4) }

unseal Rat.mul Rat.inv Rat.add Rat.sub in
/-- Claim C1 counterexample: on a row with actual 5.5 > previous 5.25 the
built-in FOMC_RATE catalog rule does NOT produce the rate-hike label — it
produces "LONG", and changing only the forecast (5.5 < 6.0 versus
5.5 ≥ 5.0) flips it to "SHORT", so the forecast IS consulted. -/
theorem C1_counterexample :
    (lookupInd PRESET_INDICATORS "FOMC_RATE").map
        (fun ind => signalSig ind.rule rowFomcA) = some "LONG" ∧
    (lookupInd PRESET_INDICATORS "FOMC_RATE").map
        (fun ind => signalSig ind.rule rowFomcB) = some "SHORT" ∧
    "LONG" ≠ "Повышение ставки" ∧ "SHORT" ≠ "Повышение ставки" := by decide

unseal Rat.mul Rat.inv Rat.add Rat.sub in
/-- Claim C2: evaluation of the Value Normalizer at the two failing inputs.
The spec requires `normalize("1,234.5") = (1234.5, None)` and
`normalize("1234,5") = (1234.5, None)`, and `_to_float` even contains the
corresponding comma-disambiguation branches; but the grouping-separator
class of `RE_NUM_CORE` omits the comma, so the match stops early
("1,234" resp. "123") and the code returns 1.234 resp. 123.0. -/
theorem C2_code_eval :
    toScalar "1,234.5" = (some ((1234 : ℚ) / 1000), none) ∧
    toScalar "1234,5" = (some 123, none) ∧
    (1234 : ℚ) / 1000 ≠ (12345 : ℚ) / 10 ∧ (123 : ℚ) ≠ (12345 : ℚ) / 10 := by decide

/-- Claim C3 (amended): the LT callable `_rule_long_if_actual_lt_forecast`
yields "LONG" exactly when actual < forecast, "SHORT" whenever
actual ≥ forecast — including equality — and "NEUTRAL" exactly when a value
is missing; the "on forecast" label exists only in the string-code "LT"
branch of `_signal_from_rows`, which in turn reports the waiting label (not
NEUTRAL) when a value is missing.  Both paths are total, so evaluation never
raises. -/
theorem C3_amended (row : Row) :
    (ruleLongIfActualLtForecast row = "LONG" ↔
      ∃ a f, row.actual_val = some a ∧ row.forecast_val = some f ∧ a < f) ∧
    (ruleLongIfActualLtForecast row = "SHORT" ↔
      ∃ a f, row.actual_val = some a ∧ row.forecast_val = some f ∧ f ≤ a) ∧
    (ruleLongIfActualLtForecast row = "NEUTRAL" ↔
      (row.actual_val = none ∨ row.forecast_val = none)) ∧
    (signalSig (RuleVal.code "LT") row = "На уровне прогноза" ↔
      ∃ a, row.actual_val = some a ∧ row.forecast_val = some a) ∧
    (signalSig (RuleVal.code "LT") row = "Ждём факт/прогноз" ↔
      (row.actual_val = none ∨ row.forecast_val = none)) := by
  have hsig : signalSig (RuleVal.code "LT") row =
      (match row.actual_val, row.forecast_val with
       | some a, some f =>
         if a < f then "Лучше прогноза (меньше — лучше)"
         else if a > f then "Хуже прогноза (меньше — лучше)"
         else "На уровне прогноза"
       | _, _ => "Ждём факт/прогноз") := rfl
  rcases hA : row.actual_val with _ | a <;> rcases hF : row.forecast_val with _ | f <;>
    simp [ruleLongIfActualLtForecast, hsig, hA, hF]
  rcases lt_trichotomy a f with h | h | h
  · simp [h, h.ne, h.ne', not_lt.mpr h.le, not_le.mpr h]
  · subst h
    simp
  · simp [h, h.ne, h.ne', not_lt.mpr h.le, h.le]

/-- A row whose actual equals its forecast. -/
def rowEqualAF : Row := { actual_val := some 3, forecast_val := some 3 }

/-- A row with the forecast value missing. -/
def rowMissingForecast : Row := { actual_val := some 3 }

/-- Claim C3 counterexample: at actual = forecast = 3.0 the LT rule of
`indicators.py` returns "SHORT" — the label the claim reserves for
actual > forecast — not an "on forecast" label; and on the path that does
have the "on forecast" label (the string-code branch), a missing forecast
yields the waiting label, not "NEUTRAL". -/
theorem C3_counterexample :
    ruleLongIfActualLtForecast rowEqualAF = "SHORT" ∧
    "SHORT" ≠ "На уровне прогноза" ∧
    signalSig (RuleVal.code "LT") rowMissingForecast = "Ждём факт/прогноз" ∧
    "Ждём факт/прогноз" ≠ "NEUTRAL" := by decide

unseal Rat.mul Rat.inv Rat.add Rat.sub in
/-- Claim C4 (amended): the format-then-parse round trip recovers the value
EXACTLY and the unit class unchanged precisely on the grid combinations
where the formatter's magnitude-driven suffix agrees with the unit:
(v, percent) and (v, none) for v ∈ {0.5, 1, 999}, and (1000, thousand),
(1500000, million), (2300000000, billion).  (On the rest of the claim's
grid the suffix changes the unit class, or — for percent values with four
or more integer digits — the comma-less number regex truncates the value;
see the counterexample.) -/
theorem C4_amended :
    toScalar (fmtVal (some (1 / 2)) (some UnitTag.percent)) =
      (some (1 / 2), some UnitTag.percent) ∧
    toScalar (fmtVal (some 1) (some UnitTag.percent)) = (some 1, some UnitTag.percent) ∧
    toScalar (fmtVal (some 999) (some UnitTag.percent)) = (some 999, some UnitTag.percent) ∧
    toScalar (fmtVal (some (1 / 2)) none) = (some (1 / 2), none) ∧
    toScalar (fmtVal (some 1) none) = (some 1, none) ∧
    toScalar (fmtVal (some 999) none) = (some 999, none) ∧
    toScalar (fmtVal (some 1000) (some UnitTag.thousand)) =
      (some 1000, some UnitTag.thousand) ∧
    toScalar (fmtVal (some 1500000) (some UnitTag.million)) =
      (some 1500000, some UnitTag.million) ∧
    toScalar (fmtVal (some 2300000000) (some UnitTag.billion)) =
      (some 2300000000, some UnitTag.billion) := by decide

unseal Rat.mul Rat.inv Rat.add Rat.sub in
/-- Claim C4 counterexample: at (v, u) = (1000, percent) — a grid point of
the claim — formatting gives "1000%" and parsing it back gives 100 (the
number regex matches only "100"), far outside any 2-decimal tolerance; and
at (1000, none) the recovered unit class is thousand, not none. -/
theorem C4_counterexample :
    toScalar (fmtVal (some 1000) (some UnitTag.percent)) =
      (some 100, some UnitTag.percent) ∧
    ¬ (|(100 : ℚ) - 1000| ≤ 1 / 100) ∧
    toScalar (fmtVal (some 1000) none) = (some 1000, some UnitTag.thousand) := by decide

/-- Claim C5 (amended): a rule code other than LT/GT/FOMC handed directly to
`_signal_from_rows` as a string does produce the descriptive label naming
the (uppercased) unrecognized code and never raises; but `get_indicators`
converts every stored custom rule code to a callable via
`_RULES.get(code, default)`, silently substituting the default LT rule for
an unrecognized code — so a merged custom indicator with an unknown stored
code evaluates to LONG/SHORT/NEUTRAL without any "unrecognized" label. -/
theorem C5_amended (r : String) (h1 : pyUpperStr r ≠ "FOMC") (h2 : pyUpperStr r ≠ "LT")
    (h3 : pyUpperStr r ≠ "GT") (row : Row) :
    signalSig (RuleVal.code r) row = "Правило " ++ pyUpperStr r ++ " не распознано" ∧
    rulesGet (some r) = ruleLongIfActualLtForecast := by
  constructor
  · show (if pyUpperStr r = "FOMC" then _ else if pyUpperStr r = "LT" then _
      else if pyUpperStr r = "GT" then _ else _) = _
    rw [if_neg h1, if_neg h2, if_neg h3]
  · show RULES_get (pyUpperStr r) = _
    unfold RULES_get
    rw [if_neg h2, if_neg h3, if_neg h1]

/-- Witness for C5 at the concrete unrecognized code "XYZ". -/
theorem C5_witness :
    pyUpperStr "XYZ" ≠ "FOMC" ∧ pyUpperStr "XYZ" ≠ "LT" ∧ pyUpperStr "XYZ" ≠ "GT" ∧
    (signalSig (RuleVal.code "XYZ") {} = "Правило XYZ не распознано" ∧
      rulesGet (some "XYZ") = ruleLongIfActualLtForecast) :=
  ⟨by decide, by decide, by decide,
    C5_amended "XYZ" (by decide) (by decide) (by decide) {}⟩

/-- A custom indicator whose stored rule code is not one of LT/GT/FOMC. -/
def customUnknownRule : CustomIndicator :=
  ⟨"CKEY", "My Custom", "https://example.com/page", some "XYZ"⟩

/-- A row with actual 2.0 below forecast 3.0. -/
def rowLtSample : Row := { actual_val := some 2, forecast_val := some 3 }

/-- Claim C5 counterexample: merging a custom indicator with the
unrecognized stored rule code "XYZ" and evaluating it yields "LONG" (the
silently substituted default LT rule fired), not a label naming the
unrecognized rule. -/
theorem C5_counterexample :
    (lookupInd (getIndicators [customUnknownRule]) "CKEY").map
        (fun ind => signalSig ind.rule rowLtSample) = some "LONG" ∧
    "LONG" ≠ "Правило XYZ не распознано" := by decide

/-- Claim C8: the altseason classification bands are exactly
value ≤ 25 → Bitcoin season, 26..68 → Neutral, 69..74 → Approaching
altseason, value ≥ 75 → Altseason (hence the boundary values 25, 26, 68,
69, 74, 75 classify as stated in the claim). -/
theorem C8_classify (v : Int) :
    ((classifyAltseason v).1 = "🔵 Сезон биткоина" ↔ v ≤ 25) ∧
    ((classifyAltseason v).1 = "⚪️ Нейтральная зона" ↔ 26 ≤ v ∧ v ≤ 68) ∧
    ((classifyAltseason v).1 = "🟡 Близко к альтсезону" ↔ 69 ≤ v ∧ v ≤ 74) ∧
    ((classifyAltseason v).1 = "🟢 Альтсезон" ↔ 75 ≤ v) := by
  unfold classifyAltseason
  split_ifs with h1 h2 h3
  · exact ⟨iff_of_true rfl h1, iff_of_false (by decide) (by omega),
      iff_of_false (by decide) (by omega), iff_of_false (by decide) (by omega)⟩
  · exact ⟨iff_of_false (by decide) (by omega), iff_of_false (by decide) (by omega),
      iff_of_false (by decide) (by omega), iff_of_true rfl (by omega)⟩
  · exact ⟨iff_of_false (by decide) (by omega), iff_of_false (by decide) (by omega),
      iff_of_true rfl (by omega), iff_of_false (by decide) (by omega)⟩
  · exact ⟨iff_of_false (by decide) (by omega), iff_of_true rfl (by omega),
      iff_of_false (by decide) (by omega), iff_of_false (by decide) (by omega)⟩

/-! ### Lemmas and theorem for claim C10 -/

/-- The running minimum of Python `min(list, key=...)` is an element of the
list. -/
lemma foldl_pick_mem (anchors : List Nat) :
    ∀ (rest : List (Nat × Nat)) (x : Nat × Nat),
      rest.foldl
        (fun best y =>
          if distToAnchors anchors y.2 < distToAnchors anchors best.2 then y else best)
        x ∈ x :: rest := by
  intro rest
  induction rest with
  | nil => intro x; simp
  | cons y t ih =>
    intro x
    simp only [List.foldl_cons]
    rcases List.mem_cons.mp
        (ih (if distToAnchors anchors y.2 < distToAnchors anchors x.2 then y else x)) with
      h | h
    · rw [h]
      by_cases hc : distToAnchors anchors y.2 < distToAnchors anchors x.2
      · rw [if_pos hc]
        exact List.mem_cons_of_mem _ (List.mem_cons_self _ _)
      · rw [if_neg hc]
        exact List.mem_cons_self _ _
    · exact List.mem_cons_of_mem _ (List.mem_cons_of_mem _ h)

/-- `minByDist` returns an element of its input list. -/
lemma minByDist_mem {anchors : List Nat} {l : List (Nat × Nat)} {p : Nat × Nat}
    (h : minByDist anchors l = some p) : p ∈ l := by
  cases l with
  | nil => simp [minByDist] at h
  | cons x rest =>
    simp only [minByDist, Option.some.injEq] at h
    exact h ▸ foldl_pick_mem anchors rest x

/-- The nearest-to-anchor pick of strategy 2 comes from the number list. -/
lemma nearestToAnchor_mem {anchors : List Nat} {nums : List (Nat × Nat)} {p : Nat × Nat}
    (h : nearestToAnchor anchors nums = some p) : p ∈ nums := by
  unfold nearestToAnchor at h
  have hmem := minByDist_mem h
  split at hmem
  · exact hmem
  · exact List.mem_of_mem_filter hmem

/-- Every number collected by `_find_numbers_0_100` is at most 100. -/
lemma mem_findNumbers0to100 {cs : List Char} {p : Nat × Nat}
    (h : p ∈ findNumbers0to100 cs) : p.1 ≤ 100 := by
  unfold findNumbers0to100 at h
  exact of_decide_eq_true (List.mem_filter.mp h).2

/-- Every successful result of strategies 2-4 is at most 100. -/
lemma extractIndexFallback_le {cs : List Char} {v : Nat}
    (h : extractIndexFallback cs = Except.ok v) : v ≤ 100 := by
  unfold extractIndexFallback at h
  split at h
  · exact absurd h (by simp)
  next first rest hn =>
    have hfirst : first.1 ≤ 100 :=
      mem_findNumbers0to100 (hn ▸ List.mem_cons_self _ _)
    split at h
    · split at h
      next p hm =>
        simp only [Except.ok.injEq] at h
        subst h
        exact mem_findNumbers0to100 (hn ▸ nearestToAnchor_mem hm)
      next hm =>
        simp only [Except.ok.injEq] at h
        omega
    · split at h
      next p hf =>
        simp only [Except.ok.injEq] at h
        subst h
        have := List.find?_some hf
        simp only [Bool.and_eq_true, decide_eq_true_eq] at this
        omega
      next hf =>
        simp only [Except.ok.injEq] at h
        omega

/-- Claim C10: whenever `_extract_index_heuristic` succeeds — through the
direct pattern, the nearest-to-anchor pick, the 30..90 scan, or the final
first-number fallback — the returned index lies in 0..100 (the lower bound
holds by the `Nat` codomain: the regex captures digit runs). -/
theorem C10_index_range (text : String) (v : Nat)
    (h : extractIndexHeuristic text = Except.ok v) : v ≤ 100 := by
  unfold extractIndexHeuristic at h
  split at h
  next w hw =>
    by_cases hle : w ≤ 100
    · rw [if_pos hle] at h
      simp only [Except.ok.injEq] at h
      omega
    · rw [if_neg hle] at h
      exact extractIndexFallback_le h
  next hw => exact extractIndexFallback_le h

/-- Witness for C10 at the concrete page text "55" (no anchors, no direct
pattern: the 30..90 strategy fires). -/
theorem C10_witness : extractIndexHeuristic "55" = Except.ok 55 ∧ 55 ≤ 100 :=
  ⟨by rfl, C10_index_range "55" 55 (by rfl)⟩

/-! ### Lemmas and theorem for claim C9 -/

/-- Replacing the value stored under `k'` leaves key membership
unchanged. -/
lemma containsKey_map_set {α : Type} (l : List (String × α)) (k k' : String) (v : α) :
    containsKey (l.map (fun p => if p.1 == k' then (k', v) else p)) k =
      containsKey l k := by
  induction l with
  | nil => rfl
  | cons p t ih =>
    simp only [List.map_cons, containsKey, List.any_cons] at *
    by_cases hp : p.1 == k'
    · rw [if_pos hp]
      have heq : p.1 = k' := by simpa using hp
      rw [heq, ih]
    · rw [if_neg hp, ih]

/-- Key membership after a Python dict assignment. -/
lemma containsKey_assocSet {α : Type} (l : List (String × α)) (k k' : String) (v : α) :
    containsKey (assocSet l k' v) k = true ↔ k = k' ∨ containsKey l k = true := by
  unfold assocSet
  by_cases hp : l.any (fun p => p.1 == k')
  · rw [if_pos hp, containsKey_map_set]
    constructor
    · exact fun h => Or.inr h
    · rintro (rfl | h)
      · exact hp
      · exact h
  · rw [if_neg hp]
    unfold containsKey
    rw [List.any_append]
    simp only [List.any_cons, List.any_nil, Bool.or_false, Bool.or_eq_true, beq_iff_eq]
    constructor
    · rintro (h | h)
      · exact Or.inr h
      · exact Or.inl h.symm
    · rintro (h | h)
      · exact Or.inr h.symm
      · exact Or.inl h

/-- One scan step stores `k` exactly when it was already stored or the row's
label matches `k`. -/
lemma containsKey_statsRowStep (init : List (String × Option Int × Option Int))
    (tds : List String) (k : String) :
    containsKey (statsRowStep init tds) k = true ↔
      containsKey init k = true ∨ rowMatchesKey tds k = true := by
  rcases tds with _ | ⟨l, _ | ⟨av, _ | ⟨bv, _ | ⟨d, t⟩⟩⟩⟩
  · simp [statsRowStep, rowMatchesKey]
  · simp [statsRowStep, rowMatchesKey]
  · simp [statsRowStep, rowMatchesKey]
  · rw [show statsRowStep init [l, av, bv] =
        (match matchKey (normalizeLabel l) with
         | some k'' => assocSet init k'' (parseIntPy av, parseIntPy bv)
         | none => init) from rfl,
      show rowMatchesKey [l, av, bv] k = (matchKey (normalizeLabel l) == some k) from rfl]
    rcases hm : matchKey (normalizeLabel l) with _ | k'
    · simp
    · rw [containsKey_assocSet]
      simp only [beq_iff_eq, Option.some.injEq]
      constructor
      · rintro (h | h)
        · exact Or.inr h.symm
        · exact Or.inl h
      · rintro (h | h)
        · exact Or.inr h
        · exact Or.inl h.symm
  · simp [statsRowStep, rowMatchesKey]

/-- A key is in the scanned stats dict exactly when some scanned row's label
matched it. -/
lemma containsKey_statsFold (rows : List (List String))
    (init : List (String × Option Int × Option Int)) (k : String) :
    containsKey (rows.foldl statsRowStep init) k = true ↔
      containsKey init k = true ∨ ∃ tds ∈ rows, rowMatchesKey tds k = true := by
  induction rows generalizing init with
  | nil => simp
  | cons tds rest ih =>
    simp only [List.foldl_cons]
    rw [ih, containsKey_statsRowStep]
    simp only [List.mem_cons]
    constructor
    · rintro ((h | h) | ⟨t, ht, hm⟩)
      · exact Or.inl h
      · exact Or.inr ⟨tds, Or.inl rfl, h⟩
      · exact Or.inr ⟨t, Or.inr ht, hm⟩
    · rintro (h | ⟨t, rfl | ht, hm⟩)
      · exact Or.inl (Or.inl h)
      · exact Or.inl (Or.inr hm)
      · exact Or.inr ⟨t, ht, hm⟩

/-- The `missing` list computed by `fetch_altseason_stats` equals the
claim-side list of unmatched keys. -/
lemma statsScan_missing_eq (trs : List (List String)) :
    requiredSorted.filter
        (fun k => !containsKey ((trs.drop 1).foldl statsRowStep []) k) =
      specUnmatchedKeys trs := by
  unfold specUnmatchedKeys
  apply List.filter_congr
  intro k _
  have h := containsKey_statsFold (trs.drop 1) [] k
  rw [show containsKey ([] : List (String × Option Int × Option Int)) k = false from rfl]
    at h
  simp only [Bool.false_eq_true, false_or] at h
  congr 1
  rw [Bool.eq_iff_iff, h, List.any_eq_true]

/-- Claim C9: when, after scanning all rows of the located table, some of
the six required metric keys have no (three-cell) row whose label matches,
the stats scan fails with an error naming exactly the unmatched keys (in
sorted order, comma-joined) and no others; when every key is matched by some
row, it succeeds. -/
theorem C9_missing_keys (trs : List (List String)) :
    (specUnmatchedKeys trs ≠ [] →
      statsScan trs = Except.error
        ("Не удалось распознать метрики таблицы: " ++
          ", ".intercalate (specUnmatchedKeys trs))) ∧
    (specUnmatchedKeys trs = [] →
      ∃ s, statsScan trs = Except.ok s) := by
  have hmiss := statsScan_missing_eq trs
  constructor
  · intro hne
    simp only [statsScan]
    rw [hmiss, if_neg (by simpa [List.isEmpty_iff] using hne)]
  · intro he
    simp only [statsScan]
    rw [hmiss, if_pos (by simp [List.isEmpty_iff, he])]
    exact ⟨_, rfl⟩

/-- A stats table (header row plus body) matching five of the six required
metrics, with `total_days` absent. -/
def statsRowsMissingTotal : List (List String) :=
  [["x", "Altcoin", "Bitcoin"],
   ["Days Since Last Season", "259", "47"],
   ["Average days between seasons", "66", "17"],
   ["Longest period without a season", "486", "191"],
   ["Average season length (days)", "18", "10"],
   ["Longest season (days)", "117", "126"]]

/-- Witness for C9 on a concrete table missing exactly `total_days`. -/
theorem C9_witness :
    specUnmatchedKeys statsRowsMissingTotal ≠ [] ∧
    statsScan statsRowsMissingTotal =
      Except.error ("Не удалось распознать метрики таблицы: " ++
        ", ".intercalate (specUnmatchedKeys statsRowsMissingTotal)) :=
  ⟨by decide, (C9_missing_keys statsRowsMissingTotal).1 (by decide)⟩

/-! ### Lemmas and theorem for claim C7 -/

/-- The starting value bounds a running-maximum fold from below. -/
lemma lmf_init_le (l : List Int) (a : Int) : a ≤ l.foldl max a := by
  induction l generalizing a with
  | nil => exact le_refl a
  | cons x t ih => exact le_trans (le_max_left a x) (ih (max a x))

/-- Every member bounds a running-maximum fold from below. -/
lemma lmf_mem_le {l : List Int} {x : Int} (hx : x ∈ l) (a : Int) : x ≤ l.foldl max a := by
  induction l generalizing a with
  | nil => cases hx
  | cons y t ih =>
    rcases List.mem_cons.mp hx with rfl | h
    · exact le_trans (le_max_right a x) (lmf_init_le t (max a x))
    · exact ih h (max a y)

/-- A running-maximum fold yields the start value or a member. -/
lemma lmf_cases (l : List Int) (a : Int) : l.foldl max a = a ∨ l.foldl max a ∈ l := by
  induction l generalizing a with
  | nil => exact Or.inl rfl
  | cons x t ih =>
    rcases ih (max a x) with h | h
    · rcases max_choice a x with hm | hm
      · exact Or.inl (by rw [List.foldl_cons, h, hm])
      · exact Or.inr (by rw [List.foldl_cons, h, hm]; exact List.mem_cons_self _ _)
    · exact Or.inr (List.mem_cons_of_mem _ h)

/-- Monotonicity of a running-maximum fold in its start value. -/
lemma lmf_mono {a b : Int} (l : List Int) (h : a ≤ b) : l.foldl max a ≤ l.foldl max b := by
  induction l generalizing a b with
  | nil => exact h
  | cons x t ih => exact ih (max_le_max h (le_refl x))

/-- The score slot of one `sc > best[2]` step maximizes. -/
lemma pickStep_snd (acc : Option HtmlTable × List String × Int) (tb : HtmlTable) :
    (pickStep acc tb).2.2 = max acc.2.2 (scoreOf tb) := by
  unfold pickStep
  split_ifs with h
  · exact (max_eq_right h.le).symm
  · exact (max_eq_left (not_lt.mp h)).symm

/-- The best-table scan's final score is the running maximum of all
scores. -/
lemma pickFold_score (l : List HtmlTable) (acc : Option HtmlTable × List String × Int) :
    (l.foldl pickStep acc).2.2 = (l.map scoreOf).foldl max acc.2.2 := by
  induction l generalizing acc with
  | nil => rfl
  | cons tb t ih =>
    simp only [List.foldl_cons, List.map_cons]
    rw [ih, pickStep_snd]

/-- With no strictly better candidate the scan keeps its accumulator. -/
lemma pickFold_stay (l : List HtmlTable) (acc : Option HtmlTable × List String × Int)
    (h : ∀ tb ∈ l, scoreOf tb ≤ acc.2.2) : l.foldl pickStep acc = acc := by
  induction l with
  | nil => rfl
  | cons tb t ih =>
    simp only [List.foldl_cons]
    rw [show pickStep acc tb = acc from
      if_neg (not_lt.mpr (h tb (List.mem_cons_self _ _)))]
    exact ih (fun x hx => h x (List.mem_cons_of_mem _ hx))

/-- When some candidate beats the accumulator, the strict-greater-than scan
settles on the FIRST table attaining the maximal score. -/
lemma pickFold_first (l : List HtmlTable) :
    ∀ (acc : Option HtmlTable × List String × Int),
      acc.2.2 < (l.map scoreOf).foldl max acc.2.2 →
      ∃ tb, l.find? (fun t => scoreOf t == (l.map scoreOf).foldl max acc.2.2) = some tb ∧
        l.foldl pickStep acc = (some tb, headsOf tb, scoreOf tb) := by
  induction l with
  | nil => intro acc h; exact absurd h (lt_irrefl _)
  | cons tb t ih =>
    intro acc h
    simp only [List.map_cons, List.foldl_cons] at h ⊢
    by_cases hgt : scoreOf tb > acc.2.2
    · have hstep : pickStep acc tb = (some tb, headsOf tb, scoreOf tb) := if_pos hgt
      have hmax : max acc.2.2 (scoreOf tb) = scoreOf tb := max_eq_right hgt.le
      rw [hmax] at h ⊢
      rw [hstep]
      by_cases hlt : scoreOf tb < (t.map scoreOf).foldl max (scoreOf tb)
      · obtain ⟨u, hfind, hfold⟩ := ih (some tb, headsOf tb, scoreOf tb) hlt
        refine ⟨u, ?_, hfold⟩
        rw [List.find?_cons_of_neg _ (by simp; exact ne_of_lt hlt), hfind]
      · have heq : (t.map scoreOf).foldl max (scoreOf tb) = scoreOf tb :=
          le_antisymm (not_lt.mp hlt) (lmf_init_le _ _)
        have hstay : t.foldl pickStep (some tb, headsOf tb, scoreOf tb) =
            (some tb, headsOf tb, scoreOf tb) := by
          apply pickFold_stay
          intro x hx
          exact heq ▸ lmf_mem_le (List.mem_map_of_mem scoreOf hx) (scoreOf tb)
        refine ⟨tb, ?_, hstay⟩
        rw [List.find?_cons_of_pos _ (by simp [heq])]
    · have hstep : pickStep acc tb = acc := if_neg hgt
      have hmax : max acc.2.2 (scoreOf tb) = acc.2.2 := max_eq_left (not_lt.mp hgt)
      rw [hmax] at h ⊢
      rw [hstep]
      obtain ⟨u, hfind, hfold⟩ := ih acc h
      refine ⟨u, ?_, hfold⟩
      have hne : scoreOf tb ≠ (t.map scoreOf).foldl max acc.2.2 :=
        ne_of_lt (lt_of_le_of_lt (not_lt.mp hgt) h)
      rw [List.find?_cons_of_neg _ (by simp; exact hne), hfind]

/-- Claim-side definition (from the claim's words): the maximal header score
over all candidate tables (scores are nonnegative, so the fold starts at
zero). -/
def specMaxScore (tables : List HtmlTable) : Int := (tables.map scoreOf).foldl max 0

/-- `pickFold_first` at the actual start accumulator `(None, [], -1)`. -/
lemma pickFold_first' (l : List HtmlTable)
    (h : (-1 : Int) < (l.map scoreOf).foldl max (-1)) :
    ∃ tb, l.find? (fun t => scoreOf t == (l.map scoreOf).foldl max (-1)) = some tb ∧
      pickFold l = (some tb, headsOf tb, scoreOf tb) :=
  pickFold_first l (none, [], -1) h

/-- With a positive score present, the claim-side maximum agrees with the
scan's (-1)-seeded maximum. -/
lemma specMaxScore_eq {tables : List HtmlTable} (hpos : ∃ tb ∈ tables, 0 < scoreOf tb) :
    specMaxScore tables = (tables.map scoreOf).foldl max (-1) := by
  obtain ⟨tb, htb, hs⟩ := hpos
  have hmem : scoreOf tb ≤ (tables.map scoreOf).foldl max (-1) :=
    lmf_mem_le (List.mem_map_of_mem scoreOf htb) (-1)
  apply le_antisymm
  · rcases lmf_cases (tables.map scoreOf) 0 with h | h
    · rw [specMaxScore, h]
      exact le_of_lt (lt_of_lt_of_le hs hmem)
    · exact lmf_mem_le h (-1)
  · exact lmf_mono _ (by omega)

/-- The two fallback phases always return a table when the document holds at
least one. -/
lemma fallbackPhase_isSome (tables : List HtmlTable) (diag0 : Diag) (h1 : tables ≠ []) :
    (fallbackPhase tables diag0).1.isSome := by
  unfold fallbackPhase
  rcases hf : tables.find? hasFallbackRow with _ | tb
  · rcases hg : tables.getLast? with _ | tb
    · exact absurd hg (by simpa using List.getLast?_isSome.mpr h1)
    · simp
  · simp

/-- Claim C7: on a document with at least one table the locator returns some
table, and whenever some table's header row scores above zero it returns the
earliest table in document order among those achieving the maximal header
score (the scan updates only on strictly greater scores). -/
theorem C7_locator (tables : List HtmlTable) (h1 : tables ≠ []) :
    (pickTargetTable tables).1.isSome ∧
    ((∃ tb ∈ tables, 0 < scoreOf tb) →
      (pickTargetTable tables).1 =
        tables.find? (fun tb => scoreOf tb == specMaxScore tables)) := by
  have hne : ¬ (tables.isEmpty = true) := by simpa [List.isEmpty_iff] using h1
  constructor
  · simp only [pickTargetTable]
    rw [if_neg hne]
    split
    · split
      · rfl
      · exact fallbackPhase_isSome _ _ h1
    · exact fallbackPhase_isSome _ _ h1
  · intro hpos
    obtain ⟨tb0, htb0, hs0⟩ := hpos
    have hm1 : (-1 : Int) < (tables.map scoreOf).foldl max (-1) :=
      lt_of_lt_of_le (by omega : (-1 : Int) < scoreOf tb0)
        (lmf_mem_le (List.mem_map_of_mem scoreOf htb0) (-1))
    obtain ⟨t, hfind, hfold⟩ := pickFold_first' tables hm1
    have hscore : scoreOf t = (tables.map scoreOf).foldl max (-1) := by
      have h2 := pickFold_score tables (none, [], -1)
      rw [show tables.foldl pickStep (none, [], -1) = pickFold tables from rfl, hfold] at h2
      exact h2
    have hpos' : ((some t, headsOf t, scoreOf t) :
        Option HtmlTable × List String × Int).2.2 > 0 := by
      have hle : scoreOf tb0 ≤ (tables.map scoreOf).foldl max (-1) :=
        lmf_mem_le (List.mem_map_of_mem scoreOf htb0) (-1)
      show scoreOf t > 0
      omega
    simp only [pickTargetTable]
    rw [if_neg hne, specMaxScore_eq ⟨tb0, htb0, hs0⟩, hfind, hfold]
    dsimp only
    rw [if_pos hpos']

/-- A concrete document: a header-less table followed by a table whose
header matches all three keyword families (score 15). -/
def tablesWitness : List HtmlTable :=
  [⟨[], [["a", "b"]]⟩,
   ⟨["Actual", "Forecast", "Previous"], [["d", "t", "1", "2", "3"]]⟩]

/-- Witness for C7 on the concrete document, also instantiating the
positive-score implication. -/
theorem C7_witness :
    tablesWitness ≠ [] ∧ (∃ tb ∈ tablesWitness, 0 < scoreOf tb) ∧
    (pickTargetTable tablesWitness).1.isSome ∧
    (pickTargetTable tablesWitness).1 =
      tablesWitness.find? (fun tb => scoreOf tb == specMaxScore tablesWitness) :=
  ⟨by decide, by decide, (C7_locator tablesWitness (by decide)).1,
    (C7_locator tablesWitness (by decide)).2 (by decide)⟩

lemma listPrefix_append {p a : List Char} (h : p.isPrefixOf a = true) (b : List Char) :
    p.isPrefixOf (a ++ b) = true := by
  induction p generalizing a with
  | nil => cases a ++ b <;> rfl
  | cons x xs ih =>
    cases a with
    | nil => simp [List.isPrefixOf] at h
    | cons y ys =>
      simp only [List.cons_append, List.isPrefixOf, Bool.and_eq_true] at h ⊢
      exact ⟨h.1, ih h.2⟩

lemma strHasPrefix_append {p a : String} (h : strHasPrefix p a = true) (b : String) :
    strHasPrefix p (a ++ b) = true := by
  unfold strHasPrefix at *
  have hd : (a ++ b).toList = a.toList ++ b.toList := by
    show (a ++ b).data = a.data ++ b.data
    exact String.data_append a b
  rw [hd]
  exact listPrefix_append h b.toList

lemma cloudStep_spec (i : Nat) (a : Attempt) (notes : List String) :
    (∃ txt notes1 x, cloudStep i a notes = (some (200, txt), x, notes1) ∧ txt ≠ "") ∨
    (∃ e notes1, cloudStep i a notes = (none, some e, notes1)) := by
  unfold cloudStep
  rcases a.cloud with e | ⟨st, txt⟩
  · exact Or.inr ⟨_, _, rfl⟩
  · dsimp only
    by_cases hok : st = 200 ∧ txt ≠ ""
    · rw [if_pos hok]
      exact Or.inl ⟨txt, _, _, by rw [hok.1], hok.2⟩
    · rw [if_neg hok]
      exact Or.inr ⟨_, _, rfl⟩

lemma reqsStep_spec (i : Nat) (a : Attempt) (notes : List String) :
    (∃ txt notes1 x, reqsStep i a notes = (some (200, txt), x, notes1) ∧ txt ≠ "") ∨
    (∃ e notes1, reqsStep i a notes = (none, some e, notes1) ∧
      strHasPrefix "[NET]" e = true) := by
  unfold reqsStep
  rcases a.reqs with e | ⟨st, txt⟩
  · exact Or.inr ⟨_, _, rfl, strHasPrefix_append (by decide) _⟩
  · dsimp only
    by_cases hok : st = 200 ∧ txt ≠ ""
    · rw [if_pos hok]
      exact Or.inl ⟨txt, _, _, by rw [hok.1], hok.2⟩
    · rw [if_neg hok]
      exact Or.inr ⟨_, _, rfl, strHasPrefix_append (by decide) _⟩

lemma getLoop_spec (l : List (Nat × Attempt)) :
    ∀ (lastErr : Option String) (notes : List String),
      (∀ e, lastErr = some e → strHasPrefix "[NET]" e = true) →
      (∃ txt note, getLoop l lastErr notes = (200, some txt, none, note) ∧ txt ≠ "") ∨
      (∃ e note, getLoop l lastErr notes = (0, none, some e, note) ∧
        strHasPrefix "[NET]" e = true) := by
  induction l with
  | nil =>
    intro lastErr notes hinv
    right
    cases lastErr with
    | none => exact ⟨_, _, rfl, by decide⟩
    | some e => exact ⟨e, _, rfl, hinv e rfl⟩
  | cons ia rest ih =>
    intro lastErr notes hinv
    obtain ⟨i, a⟩ := ia
    rcases cloudStep_spec i a notes with ⟨txt, notes1, x, hc, htxt⟩ | ⟨e, notes1, hc⟩
    · left
      exact ⟨txt, "; ".intercalate notes1, by simp only [getLoop, hc], htxt⟩
    · rcases reqsStep_spec i a notes1 with ⟨txt, notes2, x, hr, htxt⟩ | ⟨e2, notes2, hr, hpre⟩
      · left
        exact ⟨txt, "; ".intercalate notes2, by simp only [getLoop, hc, hr], htxt⟩
      · have := ih (some e2) notes2 (fun e' he' => by
          injection he' with h'
          exact h' ▸ hpre)
        rcases this with ⟨txt, note, hg, htxt⟩ | ⟨e', note, hg, hpre'⟩
        · left
          exact ⟨txt, note, by simp only [getLoop, hc, hr]; exact hg, htxt⟩
        · right
          exact ⟨e', note, by simp only [getLoop, hc, hr]; exact hg, hpre'⟩

lemma take_ne_nil {α : Type} {l : List α} {n : Nat} (hl : l ≠ []) (hn : 1 ≤ n) :
    l.take n ≠ [] := by
  cases l with
  | nil => exact absurd rfl hl
  | cons x t =>
    cases n with
    | zero => omega
    | succ m => simp

lemma fetchRowsPhase_spec (target : HtmlTable) (heads : List String) (diag : Diag)
    (limit : Nat) (hl : 1 ≤ limit) :
    (∃ rows, fetchRowsPhase target heads diag limit = (rows, none) ∧
      rows ≠ [] ∧ rows.length ≤ limit) ∨
    (∃ e, fetchRowsPhase target heads diag limit = ([], some e) ∧
      strHasPrefix "[ROW]" e = true) := by
  unfold fetchRowsPhase
  dsimp only
  rcases hre : extractRows target.tbodyRows (idxFor heads HEAD_ACTUAL_KEYS (-3))
      (idxFor heads HEAD_FORECAST_KEYS (-2))
      (idxFor heads HEAD_PREV_KEYS (-1)) with ⟨rows, badRows⟩
  dsimp only
  by_cases hrows : rows.isEmpty
  · rw [if_pos hrows]
    exact Or.inr ⟨_, rfl,
      strHasPrefix_append (strHasPrefix_append (strHasPrefix_append
        (show strHasPrefix "[ROW]" "[ROW] no rows parsed | diag: " = true by decide) _) _) _⟩
  · rw [if_neg hrows]
    refine Or.inl ⟨_, rfl,
      take_ne_nil (by simpa [List.isEmpty_iff] using hrows) hl, ?_⟩
    rw [List.length_take]
    exact min_le_left _ _

lemma fetchAfterParse_spec (tables : List HtmlTable) (limit : Nat) (hl : 1 ≤ limit) :
    (∃ rows, fetchAfterParse tables limit = (rows, none) ∧
      rows ≠ [] ∧ rows.length ≤ limit) ∨
    (∃ e, fetchAfterParse tables limit = ([], some e) ∧
      (strHasPrefix "[TABLE]" e = true ∨ strHasPrefix "[ROW]" e = true)) := by
  unfold fetchAfterParse
  rcases hp : pickTargetTable tables with ⟨o, hds, dg⟩
  rcases o with _ | target
  · exact Or.inr ⟨_, rfl, Or.inl (strHasPrefix_append
      (show strHasPrefix "[TABLE]" "[TABLE] not found | diag: " = true by decide) _)⟩
  · rcases fetchRowsPhase_spec target (hds.getD []) dg limit hl with
      ⟨rows, hr, hne, hlen⟩ | ⟨e, hr, hpre⟩
    · exact Or.inl ⟨rows, hr, hne, hlen⟩
    · exact Or.inr ⟨e, hr, Or.inr hpre⟩

/-- C6: for every network outcome (three retry attempts, each with a cloudscraper
and a requests result) and every parse outcome and every row limit ≥ 1,
`fetch_table_rows` returns exactly one of: a non-empty list of at most `limit`
rows with error `none`, or an empty list with an error string tagged by one of
the stage markers `[NET]`, `[HTML]`, `[TABLE]`, `[ROW]`; it never raises. -/
theorem C6_result_shape (a1 a2 a3 : Attempt) (parse : Except String (List HtmlTable))
    (limit : Nat) (hl : 1 ≤ limit) :
    (∃ rows, fetchTableRows (getEmbed a1 a2 a3) parse limit = (rows, none) ∧
      rows ≠ [] ∧ rows.length ≤ limit) ∨
    (∃ e, fetchTableRows (getEmbed a1 a2 a3) parse limit = ([], some e) ∧
      (strHasPrefix "[NET]" e = true ∨ strHasPrefix "[HTML]" e = true ∨
       strHasPrefix "[TABLE]" e = true ∨ strHasPrefix "[ROW]" e = true)) := by
  rcases getLoop_spec [(1, a1), (2, a2), (3, a3)] none [] (fun e he => by cases he) with
    ⟨txt, note, hg, htxt⟩ | ⟨e, note, hg, hpre⟩
  · rw [show getEmbed a1 a2 a3 = (200, some txt, none, note) from hg]
    unfold fetchTableRows
    dsimp only
    rw [if_neg (by simp [htxt])]
    cases parse with
    | error e2 =>
      exact Or.inr ⟨_, rfl, Or.inr (Or.inl (strHasPrefix_append
        (show strHasPrefix "[HTML]" "[HTML] soup fail: " = true by decide) _))⟩
    | ok tables =>
      rcases fetchAfterParse_spec tables limit hl with
        ⟨rows, hr, hne, hlen⟩ | ⟨e2, hr, hpre2⟩
      · exact Or.inl ⟨rows, hr, hne, hlen⟩
      · rcases hpre2 with h | h
        · exact Or.inr ⟨e2, hr, Or.inr (Or.inr (Or.inl h))⟩
        · exact Or.inr ⟨e2, hr, Or.inr (Or.inr (Or.inr h))⟩
  · rw [show getEmbed a1 a2 a3 = (0, none, some e, note) from hg]
    unfold fetchTableRows
    dsimp only
    rw [if_pos (by simp)]
    exact Or.inr ⟨_, rfl, Or.inl (strHasPrefix_append (strHasPrefix_append hpre _) _)⟩

theorem C6_witness :
    1 ≤ 8 ∧
    ((∃ rows, fetchTableRows
        (getEmbed ⟨Except.error "dns fail", Except.error "dns fail"⟩
          ⟨Except.error "dns fail", Except.error "dns fail"⟩
          ⟨Except.error "dns fail", Except.error "dns fail"⟩)
        (Except.error "soup fail") 8 = (rows, none) ∧ rows ≠ [] ∧ rows.length ≤ 8) ∨
     (∃ e, fetchTableRows
        (getEmbed ⟨Except.error "dns fail", Except.error "dns fail"⟩
          ⟨Except.error "dns fail", Except.error "dns fail"⟩
          ⟨Except.error "dns fail", Except.error "dns fail"⟩)
        (Except.error "soup fail") 8 = ([], some e) ∧
        (strHasPrefix "[NET]" e = true ∨ strHasPrefix "[HTML]" e = true ∨
         strHasPrefix "[TABLE]" e = true ∨ strHasPrefix "[ROW]" e = true))) :=
  ⟨by decide, C6_result_shape _ _ _ _ 8 (by decide)⟩
